import Mathlib

/-!
Verification of the ACMC compiler backend (IR generation, assembly emission,
binary encoding) against its specification.

The development shallowly embeds the relevant C functions:
* `binary_generator.c` — the instruction table, `parseRegister`, `parseImmediate`,
  `findInstruction`, `generateRType` / `generateIType` / `generateJType`,
  `parseInstruction`, the pass-1 label scan `collectLabels`, and the pass-2 word
  emission loop of `generateBinaryFromAssembly`, together with the field
  extraction performed by `printBinaryWithComments`.
* `assembly.c` — the prologue-emission branch of `processIRLine`, the dispatch
  over IR opcodes, the unknown-opcode fallback, the pending-alloca flush, and
  the entry-point fix-up scan of `generateAssemblyFromIRImproved`, plus a small
  operational semantics for the emitted machine instructions.
* `codegen.c` — `validate_ir_file`, the validation gate in `codeGen`, the
  expression-leaf lowering of `generate_expression_code` and the temporary pool.

Text handling conventions: C strings are embedded as `List Char`.  Assembly
lines are embedded as an instruction-number prefix (`Option Nat`, for the
`"N-"` prefix written by `emitInstruction`; `none` for unnumbered lines) paired
with the payload text; a `'-'` character occurs in a line exactly when the line
is numbered, which holds for all emitter-produced lines.  `fprintf "%d"` is
embedded as `natToChars`.
-/

/-! ### C string primitives -/

/-- One step of `strcmp`-style prefix matching: does `p` occur at the start
of `s`? -/
def strLeads : List Char → List Char → Bool
  | [], _ => true
  | _ :: _, [] => false
  | p :: ps, c :: cs => p == c && strLeads ps cs

/-- `strstr(s, p) != NULL`: does `p` occur as a contiguous substring of `s`? -/
def strHas (p : List Char) : List Char → Bool
  | [] => strLeads p []
  | c :: cs => strLeads p (c :: cs) || strHas p cs

/-- `strstr(s, p)` returning the suffix of `s` that starts at the first
occurrence of `p`, or `none`. -/
def strFind (p : List Char) : List Char → Option (List Char)
  | [] => if strLeads p [] then some [] else none
  | c :: cs => if strLeads p (c :: cs) then some (c :: cs) else strFind p cs

/-- `strchr(s, c) != NULL`. -/
def strHasChar (c : Char) (s : List Char) : Bool := s.contains c

/-- `isdigit` (ASCII). -/
def isDigitChar (c : Char) : Bool := '0' ≤ c && c ≤ '9'

/-- `isspace` (ASCII), as used by `atoi` for leading whitespace. -/
def isSpaceChar (c : Char) : Bool :=
  c == ' ' || c == '\t' || c == '\n' || c == '\x0b' || c == '\x0c' || c == '\r'

/-- Decimal value accumulated over a digit sequence. -/
def digitsVal (cs : List Char) : Nat :=
  cs.foldl (fun a c => 10 * a + (c.toNat - 48)) 0

/-- C `atoi`: skip leading whitespace, read an optional sign, then consume the
longest prefix of decimal digits (an empty digit sequence yields 0). -/
def atoi (s : List Char) : Int :=
  let s := s.dropWhile (fun c => isSpaceChar c)
  match s with
  | '-' :: rest => -(digitsVal (rest.takeWhile (fun c => isDigitChar c)) : Int)
  | '+' :: rest => (digitsVal (rest.takeWhile (fun c => isDigitChar c)) : Int)
  | _ => (digitsVal (s.takeWhile (fun c => isDigitChar c)) : Int)

/-- `fprintf(.., "%d", n)` for a natural number: most-significant digit
first.  The fuel (initialised to `n`, which always suffices) only serves
termination. -/
def natToCharsAux : Nat → Nat → List Char → List Char
  | 0, _, acc => acc
  | fuel + 1, n, acc =>
    if n = 0 then acc
    else natToCharsAux fuel (n / 10) (Char.ofNat (48 + n % 10) :: acc)

/-- Decimal rendering of a natural number. -/
def natToChars (n : Nat) : List Char :=
  if n = 0 then ['0'] else natToCharsAux n n []

/-- Delimiters of `strtok(.., " \t,")` in `parseInstruction`. -/
def isTokDelim (c : Char) : Bool := c == ' ' || c == '\t' || c == ','

/-- Fuel-driven `strtok` splitting; the fuel (initialised to the string
length, which always suffices) only serves termination. -/
def tokenizeAux : Nat → List Char → List (List Char)
  | 0, _ => []
  | _, [] => []
  | fuel + 1, c :: cs =>
    if isTokDelim c then tokenizeAux fuel cs
    else (c :: cs.takeWhile (fun x => ¬ isTokDelim x)) ::
      tokenizeAux fuel (cs.dropWhile (fun x => ¬ isTokDelim x))

/-- `strtok(line, " \t,")` iterated: the list of non-empty tokens. -/
def tokenize (s : List Char) : List (List Char) := tokenizeAux s.length s

/-- Lower-case a C string (`strcasecmp` lowers both sides). -/
def toLowerChars (s : List Char) : List Char := s.map Char.toLower

/-! ### binary_generator.c: instruction table and field packing -/

/-- `InstructionFormat` from binary_generator.c. -/
inductive IFormat where
  | fmtR : IFormat
  | fmtI : IFormat
  | fmtJ : IFormat
deriving DecidableEq, Repr

/-- `ProcessorInstruction` from binary_generator.c. -/
structure PInstr where
  mnemonic : String
  opcode : Nat
  fmt : IFormat
deriving DecidableEq, Repr

/-- The fixed instruction table `instructions[]` of binary_generator.c. -/
def instructions : List PInstr := [
  ⟨"add",         0x00, .fmtR⟩,
  ⟨"sub",         0x01, .fmtR⟩,
  ⟨"mult",        0x02, .fmtR⟩,
  ⟨"div",         0x03, .fmtR⟩,
  ⟨"and",         0x04, .fmtR⟩,
  ⟨"or",          0x05, .fmtR⟩,
  ⟨"sll",         0x06, .fmtR⟩,
  ⟨"srl",         0x07, .fmtR⟩,
  ⟨"slt",         0x08, .fmtR⟩,
  ⟨"mfhi",        0x09, .fmtR⟩,
  ⟨"mflo",        0x0A, .fmtR⟩,
  ⟨"move",        0x0B, .fmtR⟩,
  ⟨"jr",          0x0C, .fmtR⟩,
  ⟨"jalr",        0x0D, .fmtR⟩,
  ⟨"la",          0x0E, .fmtI⟩,
  ⟨"addi",        0x0F, .fmtI⟩,
  ⟨"subi",        0x10, .fmtI⟩,
  ⟨"andi",        0x11, .fmtI⟩,
  ⟨"ori",         0x12, .fmtI⟩,
  ⟨"beq",         0x13, .fmtI⟩,
  ⟨"bne",         0x14, .fmtI⟩,
  ⟨"bgt",         0x15, .fmtI⟩,
  ⟨"bgte",        0x16, .fmtI⟩,
  ⟨"blt",         0x17, .fmtI⟩,
  ⟨"blte",        0x18, .fmtI⟩,
  ⟨"lw",          0x19, .fmtI⟩,
  ⟨"sw",          0x1A, .fmtI⟩,
  ⟨"li",          0x1B, .fmtI⟩,
  ⟨"j",           0x1C, .fmtJ⟩,
  ⟨"jal",         0x1D, .fmtJ⟩,
  ⟨"halt",        0x1E, .fmtR⟩,
  ⟨"outputmem",   0x1F, .fmtI⟩,
  ⟨"outputreg",   0x20, .fmtR⟩,
  ⟨"outputreset", 0x21, .fmtR⟩,
  ⟨"input",       0x22, .fmtR⟩]

/-- Label table entry of binary_generator.c (`labels[]`). -/
abbrev BLabels := List (List Char × Nat)

/-- `parseRegister`: `"r5"`/`"R31"` to the register number; any string shorter
than two characters or not starting with `r`/`R` yields 0. -/
def parseRegister (s : List Char) : Int :=
  if s.length < 2 then 0
  else match s with
    | c :: rest => if c == 'r' || c == 'R' then atoi rest else 0
    | [] => 0

/-- `parseImmediate`: first look the string up in the label table, otherwise
parse it as a number with `atoi`. -/
def parseImmediate (labels : BLabels) (s : List Char) : Int :=
  match labels.find? (fun l => l.1 == s) with
  | some l => (l.2 : Int)
  | none => atoi s

/-- `findInstruction`: case-insensitive mnemonic lookup in the fixed table. -/
def findInstruction (m : List Char) : Option PInstr :=
  instructions.find?
    (fun i => toLowerChars m == toLowerChars i.mnemonic.toList)

/-- `(uint32_t)x` for a C `int` value: reduction mod 2^32 of the two's
complement value. -/
def castU32 (x : Int) : Nat := (x % (2 ^ 32 : Int)).toNat

/-- The branch mnemonics special-cased by `generateIType` (exact `strcmp`
list). -/
def branchMnems : List String := ["beq", "bne", "bgt", "bgte", "blt", "blte"]

/-- The `strstr(mnemonic, "b") == mnemonic` test used by both
`parseInstruction` and `printBinaryWithComments`: the first occurrence of
`"b"` is at offset 0, i.e. the mnemonic starts with `'b'`. -/
def mnemLeadsB (m : String) : Bool := m.toList.head? == some 'b'

/-- `generateRType`:
`OPCODE[31:26] | RS[25:20] | RT[19:14] | RD[13:8] | SHAMT[7:0]`. -/
def generateRType (instr : PInstr) (rs rt rd shamt : Int) : Nat :=
  ((((instr.opcode &&& 0x3F) <<< 26) |||
    ((castU32 rs &&& 0x3F) <<< 20) |||
    ((castU32 rt &&& 0x3F) <<< 14) |||
    ((castU32 rd &&& 0x3F) <<< 8)) |||
    (castU32 shamt &&& 0xFF))

/-- `generateIType`: branches place a 6-bit address in `[5:0]`; all other
I-type instructions place a 14-bit immediate in `[13:0]`. -/
def generateIType (instr : PInstr) (rs rt immediate : Int) : Nat :=
  if branchMnems.contains instr.mnemonic then
    ((((instr.opcode &&& 0x3F) <<< 26) |||
      ((castU32 rs &&& 0x3F) <<< 20) |||
      ((castU32 rt &&& 0x3F) <<< 14)) |||
      (castU32 immediate &&& 0x3F))
  else
    ((((instr.opcode &&& 0x3F) <<< 26) |||
      ((castU32 rs &&& 0x3F) <<< 20) |||
      ((castU32 rt &&& 0x3F) <<< 14)) |||
      (castU32 immediate &&& 0x3FFF))

/-- `generateJType`: `OPCODE[31:26] | unused[25:6] | ADDRESS[5:0]`. -/
def generateJType (instr : PInstr) (address : Int) : Nat :=
  ((instr.opcode &&& 0x3F) <<< 26) ||| (castU32 address &&& 0x3F)

/-! ### binary_generator.c: parseInstruction -/

/-- The operand-extraction switch of `parseInstruction`: given the table entry
and the token list (mnemonic at index 0), read registers/immediates from the
fixed token positions of that mnemonic (fields left at 0 when the token count
is too small) and pack them. -/
def encodeOperands (labels : BLabels) (instr : PInstr)
    (toks : List (List Char)) : Nat :=
  let tc := toks.length
  let tok := fun i => toks.getD i []
  match instr.fmt with
  | .fmtR =>
    if instr.mnemonic == "add" || instr.mnemonic == "sub" ||
       instr.mnemonic == "and" || instr.mnemonic == "or" ||
       instr.mnemonic == "slt" then
      if tc ≥ 4 then
        generateRType instr (parseRegister (tok 2)) (parseRegister (tok 3))
          (parseRegister (tok 1)) 0
      else generateRType instr 0 0 0 0
    else if instr.mnemonic == "mult" || instr.mnemonic == "div" then
      if tc ≥ 3 then
        generateRType instr (parseRegister (tok 1)) (parseRegister (tok 2)) 0 0
      else generateRType instr 0 0 0 0
    else if instr.mnemonic == "move" then
      if tc ≥ 3 then
        generateRType instr (parseRegister (tok 2)) 0 (parseRegister (tok 1)) 0
      else generateRType instr 0 0 0 0
    else if instr.mnemonic == "mfhi" || instr.mnemonic == "mflo" then
      if tc ≥ 2 then generateRType instr 0 0 (parseRegister (tok 1)) 0
      else generateRType instr 0 0 0 0
    else if instr.mnemonic == "jr" || instr.mnemonic == "jalr" then
      if tc ≥ 2 then generateRType instr (parseRegister (tok 1)) 0 0 0
      else generateRType instr 0 0 0 0
    else if instr.mnemonic == "sll" || instr.mnemonic == "srl" then
      if tc ≥ 4 then
        generateRType instr (parseRegister (tok 2)) 0 (parseRegister (tok 1))
          (parseImmediate labels (tok 3))
      else generateRType instr 0 0 0 0
    else if instr.mnemonic == "outputreg" then
      if tc ≥ 2 then generateRType instr (parseRegister (tok 1)) 0 0 0
      else generateRType instr 0 0 0 0
    else if instr.mnemonic == "input" then
      if tc ≥ 2 then generateRType instr 0 0 (parseRegister (tok 1)) 0
      else generateRType instr 0 0 0 0
    else generateRType instr 0 0 0 0
  | .fmtI =>
    if instr.mnemonic == "addi" || instr.mnemonic == "subi" ||
       instr.mnemonic == "andi" || instr.mnemonic == "ori" then
      if tc ≥ 4 then
        generateIType instr (parseRegister (tok 2)) (parseRegister (tok 1))
          (parseImmediate labels (tok 3))
      else generateIType instr 0 0 0
    else if instr.mnemonic == "li" then
      if tc ≥ 3 then
        generateIType instr 0 (parseRegister (tok 1))
          (parseImmediate labels (tok 2))
      else generateIType instr 0 0 0
    else if instr.mnemonic == "la" then
      if tc ≥ 3 then
        generateIType instr 0 (parseRegister (tok 1))
          (parseImmediate labels (tok 2))
      else generateIType instr 0 0 0
    else if mnemLeadsB instr.mnemonic then
      if tc ≥ 4 then
        generateIType instr (parseRegister (tok 1)) (parseRegister (tok 2))
          (parseImmediate labels (tok 3))
      else generateIType instr 0 0 0
    else if instr.mnemonic == "lw" || instr.mnemonic == "sw" then
      if tc ≥ 4 then
        generateIType instr (parseRegister (tok 2)) (parseRegister (tok 1))
          (parseImmediate labels (tok 3))
      else if tc ≥ 3 then
        generateIType instr (parseRegister (tok 2)) (parseRegister (tok 1)) 0
      else generateIType instr 0 0 0
    else if instr.mnemonic == "outputmem" then
      if tc ≥ 3 then
        generateIType instr (parseRegister (tok 1)) 0
          (parseImmediate labels (tok 2))
      else generateIType instr 0 0 0
    else generateIType instr 0 0 0
  | .fmtJ =>
    if tc ≥ 2 then generateJType instr (parseImmediate labels (tok 1))
    else generateJType instr 0

/-- `parseInstruction` on the payload (the line after the `"N-"` prefix was
stripped by the `memmove`): `some 0` for comment lines and unknown mnemonics,
`none` for the `0xFFFFFFFF` skip marker (function headers, placeholders,
labels, 1–2 character artifacts), otherwise the packed word. -/
def parseInstructionLine (labels : BLabels) (text : List Char) : Option Nat :=
  if text.head? == some '#' then some 0
  else if strHas "Func".toList text || strHas "CEHOLDER".toList text then none
  else if strHasChar ':' text then none
  else if text.length == 1 || text.length == 2 then none
  else match tokenize text with
    | [] => some 0
    | m :: _ =>
      match findInstruction m with
      | none => some 0
      | some instr => some (encodeOperands labels instr (tokenize text))

/-! ### binary_generator.c: the two passes -/

/-- An emitted assembly line: the `emitInstruction` number prefix (`none` for
unnumbered lines written by `emitLabel` / `emitFunctionLabel` / the entry
fix-up) and the payload text after the `-` separator. -/
structure AsmLine where
  num : Option Nat
  text : List Char
deriving DecidableEq

/-- The label-name extraction of `collectLabels` for `Func name:` lines:
skip `"Func "`, then spaces, and cut at the next `':'`. -/
def funcLabelRecord (pc : Nat) (labels : BLabels) (text : List Char) :
    BLabels :=
  match strFind "Func ".toList text with
  | none => labels
  | some suffix =>
    let fs := (suffix.drop 5).dropWhile (fun c => c == ' ')
    if strHasChar ':' fs then
      labels ++ [(fs.takeWhile (fun c => ¬ (c == ':')), pc)]
    else labels

/-- The label-name extraction of `collectLabels` for plain label lines:
cut at the first `':'`, drop any `"N-"` prefix, skip spaces and tabs. -/
def plainLabelName (text : List Char) : List Char :=
  let t := text.takeWhile (fun c => ¬ (c == ':'))
  let t := match strFind "-".toList t with
    | some suffix => suffix.drop 1
    | none => t
  t.dropWhile (fun c => c == ' ' || c == '\t')

/-- The real-payload test shared by the two counter updates of
`collectLabels`: not a `Func`/`CEHOLDER` line, no colon, not a comment
(the C code spells the four conjuncts in a different order at the two
sites, which is equivalent). -/
def pass1RealPayload (t : List Char) : Bool :=
  !strHas "Func".toList t && !strHas "CEHOLDER".toList t &&
    !strHasChar ':' t && !(t.head? == some '#')

/-- One line of the pass-1 scan `collectLabels`: update the program counter
from numbered real lines (`pc = instruction_number`), record `Func` and plain
labels against the counter, and count unnumbered real lines. -/
def pass1Step (st : Nat × BLabels) (l : AsmLine) : Nat × BLabels :=
  let pc := st.1
  let labels := st.2
  let pc1 := match l.num with
    | some n => if pass1RealPayload l.text then n else pc
    | none => pc
  let labels1 :=
    if strHas "Func ".toList l.text && strHasChar ':' l.text then
      funcLabelRecord pc1 labels l.text
    else if strHasChar ':' l.text && !strHas "Func".toList l.text then
      labels ++ [(plainLabelName l.text, pc1 + 1)]
    else labels
  let pc2 :=
    if l.num == none && pass1RealPayload l.text then pc1 + 1 else pc1
  (pc2, labels1)

/-- Pass 1 over the whole assembly file. -/
def pass1 (lines : List AsmLine) : Nat × BLabels :=
  lines.foldl pass1Step (0, [])

/-- One line of the pass-2 loop of `generateBinaryFromAssembly`: skip the
`0xFFFFFFFF` marker lines; emit a word for every other line except an
unnumbered line that parsed to 0.  The address of each emitted word is its
index in the accumulated list. -/
def pass2Step (labels : BLabels) (ws : List Nat) (l : AsmLine) : List Nat :=
  match parseInstructionLine labels l.text with
  | none => ws
  | some w => if w == 0 && l.num == none then ws else ws ++ [w]

/-- Pass 2 over the whole assembly file: the emitted 32-bit words in order. -/
def pass2Words (labels : BLabels) (lines : List AsmLine) : List Nat :=
  lines.foldl (pass2Step labels) []

/-! ### binary_generator.c: printBinaryWithComments field extraction -/

/-- `(binary >> 26) & 0x3F`. -/
def opcodeField (w : Nat) : Nat := (w >>> 26) &&& 0x3F

/-- `(binary >> 20) & 0x3F`. -/
def rsField (w : Nat) : Nat := (w >>> 20) &&& 0x3F

/-- `(binary >> 14) & 0x3F`. -/
def rtField (w : Nat) : Nat := (w >>> 14) &&& 0x3F

/-- `(binary >> 8) & 0x3F`. -/
def rdField (w : Nat) : Nat := (w >>> 8) &&& 0x3F

/-- `binary & 0x3FFF`. -/
def immField (w : Nat) : Nat := w &&& 0x3FFF

/-- `binary & 0x3F`. -/
def addrField (w : Nat) : Nat := w &&& 0x3F

/-- The first table entry whose opcode matches (the decode loop of
`printBinaryWithComments`). -/
def findByOpcode (op : Nat) : Option PInstr :=
  instructions.find? (fun i => i.opcode == op)

/-- The decoded rendering of `printBinaryWithComments`: the mnemonic found by
opcode, and the operand values printed for its format (R: RS, RT, RD;
I: RS, RT and the address field for branch mnemonics or the immediate field
otherwise; J: the address field). -/
def decodeRender (w : Nat) : Option (String × List Nat) :=
  match findByOpcode (opcodeField w) with
  | none => none
  | some i =>
    some (i.mnemonic,
      match i.fmt with
      | .fmtR => [rsField w, rtField w, rdField w]
      | .fmtI =>
        if mnemLeadsB i.mnemonic then [rsField w, rtField w, addrField w]
        else [rsField w, rtField w, immField w]
      | .fmtJ => [addrField w])

/-! ### assembly.c: machine instructions and straight-line semantics

The assembly emitter produces textual instructions; for the frame-slot
claims they are embedded structurally, with a state-transformer semantics.
`R0` is the hard-wired zero register.  `jal` writes the return-address
register `R31`; since the embedding is straight-line, the link value it
writes is carried as an explicit argument. -/

inductive MInstr where
  | addi (rt rs : Nat) (imm : Int)
  | subi (rt rs : Nat) (imm : Int)
  | add (rd rs rt : Nat)
  | sub (rd rs rt : Nat)
  | slt (rd rs rt : Nat)
  | andi (rt rs : Nat) (imm : Int)
  | sll (rd rs : Nat) (sh : Nat)
  | mult (rs rt : Nat)
  | mflo (rd : Nat)
  | mfhi (rd : Nat)
  | move (rd rs : Nat)
  | li (rt : Nat) (imm : Int)
  | lw (rt base : Nat) (off : Int)
  | sw (rt base : Nat) (off : Int)
  | jal (link : Int)
  | jr (rs : Nat)
  | jmp (target : Nat)
  | br (rs rt : Nat) (target : List Char)
  | input (v : Int) (rd : Nat)
  | outputreg (rs : Nat)
  | halt
deriving DecidableEq

/-- Machine state: a 64-register file and data memory. -/
structure MState where
  regs : Nat → Int
  mem : Int → Int

/-- Register read; `R0` always reads 0. -/
def readReg (σ : MState) (r : Nat) : Int := if r = 0 then 0 else σ.regs r

/-- Register write. -/
def writeReg (σ : MState) (r : Nat) (v : Int) : MState :=
  { σ with regs := fun x => if x = r then v else σ.regs x }

/-- Memory write. -/
def writeMem (σ : MState) (a : Int) (v : Int) : MState :=
  { σ with mem := fun x => if x = a then v else σ.mem x }

/-- One instruction step.  `mult`/`div` results live in the `LO`/`HI`
registers `R62`/`R63`; branches and jumps have no register or memory
effect in the straight-line embedding. -/
def stepM (σ : MState) : MInstr → MState
  | .addi rt rs imm => writeReg σ rt (readReg σ rs + imm)
  | .subi rt rs imm => writeReg σ rt (readReg σ rs - imm)
  | .add rd rs rt => writeReg σ rd (readReg σ rs + readReg σ rt)
  | .sub rd rs rt => writeReg σ rd (readReg σ rs - readReg σ rt)
  | .slt rd rs rt =>
    writeReg σ rd (if readReg σ rs < readReg σ rt then 1 else 0)
  | .andi rt rs imm => writeReg σ rt (Int.land (readReg σ rs) imm)
  | .sll rd rs sh => writeReg σ rd (readReg σ rs * (2 ^ sh : Nat))
  | .mult rs rt => writeReg σ 62 (readReg σ rs * readReg σ rt)
  | .mflo rd => writeReg σ rd (readReg σ 62)
  | .mfhi rd => writeReg σ rd (readReg σ 63)
  | .move rd rs => writeReg σ rd (readReg σ rs)
  | .li rt imm => writeReg σ rt imm
  | .lw rt base off => writeReg σ rt (σ.mem (readReg σ base + off))
  | .sw rt base off => writeMem σ (readReg σ base + off) (readReg σ rt)
  | .jal link => writeReg σ 31 link
  | .jr _ => σ
  | .jmp _ => σ
  | .br _ _ _ => σ
  | .input v rd => writeReg σ rd v
  | .outputreg _ => σ
  | .halt => σ

/-- Straight-line execution of an instruction list. -/
def execM (l : List MInstr) (σ : MState) : MState := l.foldl stepM σ

/-- The memory address written by an instruction in a given state (`sw` is
the only memory-writing instruction). -/
def memWriteAddr (σ : MState) : MInstr → Option Int
  | .sw _ base off => some (readReg σ base + off)
  | _ => none

/-- Does executing `l` from `σ` never write memory address `a`? -/
def avoidsAddr : List MInstr → MState → Int → Bool
  | [], _, _ => true
  | i :: rest, σ, a =>
    (memWriteAddr σ i != some a) && avoidsAddr rest (stepM σ i) a

/-! ### assembly.c: the prologue emitted by processIRLine -/

/-- The parameter-save loop of the prologue branch of `processIRLine`: for a
non-`main` function the loop over the `var_offset_map_count` entries emits
`sw r1 r30 1` and `sw r2 r30 2` while its internal counter is below 2, i.e.
`min (var_offset_map_count) 2` saves; `main` saves nothing. -/
def prologueParamSaves (funcName : String) (varOffsetCount : Nat) :
    List MInstr :=
  if funcName == "main" then []
  else (List.range (min varOffsetCount 2)).map
    (fun i => .sw (i + 1) 30 (Int.ofNat (i + 1)))

/-- The full prologue emitted when the first real instruction of a function
is reached: advance the stack pointer `r30` by `var_offset_map_count + 1`,
save the return address `r31` at slot 0, then the parameter saves. -/
def prologueEmit (funcName : String) (varOffsetCount : Nat) : List MInstr :=
  .addi 30 30 (Int.ofNat (varOffsetCount + 1)) :: .sw 31 30 0 ::
    prologueParamSaves funcName varOffsetCount

/-- The `param`-opcode emission of `processIRLine` for an immediate argument
value: `move rK r0` for 0, otherwise `addi rK r0 v`, with `K` the 1-based
parameter position. -/
def paramEmitImm (pos : Nat) (v : Int) : List MInstr :=
  if v = 0 then [.move pos 0] else [.addi pos 0 v]

/-- The variable-offset lookup performed by the `loadVar`/`storeVar`
branches: find the entry with the given name and scope. -/
def varOffsetLookup (offsets : List (List Char × List Char × Nat))
    (scope name : List Char) : Option Nat :=
  match offsets.find? (fun e => e.2.1 == name && e.1 == scope) with
  | some e => some e.2.2
  | none => none

/-- The pending-alloca flush performed at `funInicio`: every buffered
`allocaMemVar` whose scope matches the function gets the next offset,
starting at 1. -/
def flushPendingOffsets (pending : List (List Char × List Char))
    (scope : List Char) : List (List Char × List Char × Nat) :=
  ((pending.filter (fun p => p.1 == scope)).enum).map
    (fun e => (scope, e.2.2, e.1 + 1))

/-! ### assembly.c: processIRLine dispatch and the unknown-IR fallback -/

/-- The guard chain of `processIRLine`: is the IR opcode handled by one of
the explicit branches (in source order)?  The `loadVar`, `storeVar` and
`funFim` branches additionally require being inside a function;
`allocaMemVar` outside a function is buffered. -/
def irHandled (inFunc : Bool) (op : List Char) : Bool :=
  (op == "allocaMemVar".toList && !inFunc) ||
  op == "funInicio".toList ||
  (op == "loadVar".toList && inFunc) ||
  (op == "storeVar".toList && inFunc) ||
  (op == "funFim".toList && inFunc) ||
  op == "param".toList ||
  op == "call".toList ||
  op == "move".toList ||
  op == "add".toList ||
  op == "sub".toList ||
  op == "mult".toList ||
  op == "div".toList ||
  op == "slt".toList ||
  op == "sgt".toList ||
  op == "slet".toList ||
  op == "sget".toList ||
  op == "sdt".toList ||
  op == "loadVet".toList ||
  op == "storeVet".toList ||
  op == "GLOBAL_ARRAY".toList ||
  op == "li".toList ||
  op == "set".toList ||
  op == "seq".toList ||
  op == "sne".toList ||
  op == "bne".toList ||
  op == "jump".toList ||
  op == "label_op".toList ||
  op == "PARAM".toList ||
  op == "MOV".toList ||
  op == "ADD".toList ||
  op == "SUB".toList ||
  op == "MUL".toList ||
  op == "DIV".toList ||
  op == "CMP".toList ||
  op == "BR_NE".toList ||
  op == "BR_EQ".toList ||
  op == "BR_GE".toList ||
  op == "BR_LT".toList ||
  op == "BR_LE".toList ||
  op == "BR_GT".toList ||
  op == "GOTO".toList ||
  (strLeads "L".toList op && op.getLast? == some ':') ||
  op == "CALL".toList ||
  op == "ARG".toList ||
  op == "RETURN".toList ||
  op == "STORE_RET".toList ||
  op == "LOAD_ARRAY".toList ||
  op == "STORE_ARRAY".toList

/-- The final `else` branch of `processIRLine`: `allocaMemVar` is skipped
silently, every other unhandled line is recorded as a numbered comment
placeholder `"# Unknown IR: <line>"` via `emitInstruction` (which consumes
one instruction number). -/
def irFallbackEmit (counter : Nat) (op line : List Char) :
    Nat × List AsmLine :=
  if op == "allocaMemVar".toList then (counter, [])
  else (counter + 1, [⟨some counter, "# Unknown IR: ".toList ++ line⟩])

/-! ### assembly.c: the entry-point fix-up of generateAssemblyFromIRImproved -/

/-- The scan for `main`: after a line containing `"Func main:"` has been
seen, return the instruction number of the first numbered line without a
colon. -/
def findMainAux : Bool → List AsmLine → Option Nat
  | _, [] => none
  | found, l :: rest =>
    if strHas "Func main:".toList l.text then findMainAux true rest
    else if found && l.num.isSome && ¬ strHasChar ':' l.text then l.num
    else findMainAux found rest

/-- `main_line` of `generateAssemblyFromIRImproved`. -/
def findMainNum (lines : List AsmLine) : Option Nat := findMainAux false lines

/-- The unnumbered `j <n>` line written at the top of the output file. -/
def entryJumpLine (n : Nat) : AsmLine := ⟨none, 'j' :: ' ' :: natToChars n⟩

/-- The final output: the entry jump (to `main`'s first instruction number
when found, otherwise to 1) followed by all generated lines. -/
def rewriteWithEntryJump (lines : List AsmLine) : List AsmLine :=
  match findMainNum lines with
  | some n => entryJumpLine n :: lines
  | none => entryJumpLine 1 :: lines

/-! ### codegen.c: validate_ir_file and the validation gate -/

/-- Lines skipped by `validate_ir_file`: empty lines and lines starting with
`'/'` or `'#'`. -/
def validSkipLine (line : List Char) : Bool :=
  line.isEmpty || line.head? == some '/' || line.head? == some '#'

/-- Per-line error count of `validate_ir_file`: one error for a suspicious
pattern (`t-1`, `L-1`, `NULL`), one for a malformed-instruction marker
(`OP_UNKNOWN`, `BR_UNKNOWN`). -/
def validLineErrs (line : List Char) : Nat :=
  (if strHas "t-1".toList line || strHas "L-1".toList line ||
      strHas "NULL".toList line then 1 else 0) +
  (if strHas "OP_UNKNOWN".toList line || strHas "BR_UNKNOWN".toList line
   then 1 else 0)

/-- `validate_ir_file`: sum the per-line errors over non-skipped lines and
add one error when the counts of lines containing `FUNC_BEGIN` and
`END_FUNC` differ. -/
def validateIRFile (lines : List (List Char)) : Nat :=
  let real := lines.filter (fun l => ¬ validSkipLine l)
  let errs := (real.map validLineErrs).sum
  let begins := (real.filter (fun l => strHas "FUNC_BEGIN".toList l)).length
  let ends := (real.filter (fun l => strHas "END_FUNC".toList l)).length
  errs + (if begins = ends then 0 else 1)

/-- The gate in `codeGen`: the assembly (and hence binary) stage runs exactly
when `validate_ir_file` reported zero errors. -/
def assemblyStageRuns (lines : List (List Char)) : Bool :=
  validateIRFile lines == 0

/-- The function-begin marker actually written by `flush_function_buffer`. -/
def funInicioLine (name : List Char) : List Char :=
  "funInicio ".toList ++ name ++ " ___ ___".toList

/-- The function-end marker actually written by `flush_function_buffer`. -/
def funFimLine (name : List Char) : List Char :=
  "funFim ".toList ++ name ++ " ___ ___".toList

/-- Count of emitted-dialect function-begin markers in an IR file. -/
def emittedBeginCount (lines : List (List Char)) : Nat :=
  (lines.filter (fun l => strLeads "funInicio ".toList l)).length

/-- Count of emitted-dialect function-end markers in an IR file. -/
def emittedEndCount (lines : List (List Char)) : Nat :=
  (lines.filter (fun l => strLeads "funFim ".toList l)).length

/-! ### codegen.c: expression-leaf lowering of generate_expression_code -/

/-- Arithmetic/comparison operators of the `OpK` case. -/
inductive CmOp where
  | mais | subOp | multOp | divOp | igdad | difer | maiig | menig | maior
  | menor
deriving DecidableEq

/-- The `op_str` table of the `OpK` case of `generate_expression_code`. -/
def cmOpStr : CmOp → List Char
  | .mais => "add".toList
  | .subOp => "sub".toList
  | .multOp => "mult".toList
  | .divOp => "divisao".toList
  | .igdad => "set".toList
  | .difer => "sdt".toList
  | .maiig => "sget".toList
  | .menig => "slet".toList
  | .maior => "sgt".toList
  | .menor => "slt".toList

/-- Expression subtrees handled by `generate_expression_code`: constants,
scalar variables (`child[0] == NULL`), array accesses (`child[0]` is the
index expression) and binary operations. -/
inductive ExpNode where
  | constE (v : Int)
  | varSimple (name : List Char)
  | varArr (name : List Char) (index : ExpNode)
  | opE (op : CmOp) (lhs rhs : ExpNode)

/-- `snprintf(.., "%d", v)` for a C int. -/
def intToChars (v : Int) : List Char :=
  if v < 0 then '-' :: natToChars v.natAbs else natToChars v.toNat

/-- `allocate_temp_register`: first free entry of the 128-slot pool, named
`t<i>`; fallback `t0` when the pool is exhausted. -/
def allocTemp (pool : List Bool) : List Char × List Bool :=
  match pool.findIdx? (fun b => !b) with
  | some i => ('t' :: natToChars i, pool.set i true)
  | none => ("t0".toList, pool)

/-- `release_temp_register`: only names starting with `'t'` are released,
and only when the parsed index is in pool range. -/
def releaseTemp (pool : List Bool) (name : List Char) : List Bool :=
  if name.head? == some 't' then
    let i := atoi (name.drop 1)
    if 0 ≤ i ∧ i.toNat < pool.length then pool.set i.toNat false else pool
  else pool

/-- `release_temp_register` applied only when the operand is a temporary
(the `[0] == 't'` guards at the call sites). -/
def releaseIfTemp (pool : List Bool) (name : List Char) : List Bool :=
  if name.head? == some 't' then releaseTemp pool name else pool

/-- Join IR operand strings with single spaces. -/
def irLine : List (List Char) → List Char
  | [] => []
  | [x] => x
  | x :: xs => x ++ ' ' :: irLine xs

/-- State of the IR generator during expression lowering: the temporary pool
and the emitted lines (buffered and direct output interleaved in emission
order). -/
structure GenState where
  pool : List Bool
  out : List (List Char)

/-- `generate_expression_code`, lowering one expression subtree bottom-up.
Returns the operand string holding the value (a literal for constants, a
fresh temporary otherwise) and the updated state.
* constants: rendered directly, nothing emitted;
* scalar variables: `generate_load_var` — allocate a temporary, emit
  `loadVar scope name t`;
* array accesses: lower the index, `generate_load_var` the base, emit the
  address `add`, `generate_load_vet` into a fresh temporary, release the
  intermediate temporaries;
* binary operations: lower both operands, emit one operation into a fresh
  temporary, release operand temporaries. -/
def genExp (scope : List Char) : ExpNode → GenState → (List Char × GenState)
  | .constE v, st => (intToChars v, st)
  | .varSimple name, st =>
    let (t, pool) := allocTemp st.pool
    (t, ⟨pool, st.out ++ [irLine ["loadVar".toList, scope, name, t]]⟩)
  | .varArr name index, st =>
    let (idx, st₁) := genExp scope index st
    let (base, pool₂) := allocTemp st₁.pool
    let out₂ := st₁.out ++ [irLine ["loadVar".toList, scope, name, base]]
    let (addr, pool₃) := allocTemp pool₂
    let out₃ := out₂ ++ [irLine ["add".toList, base, idx, addr]]
    let (res, pool₄) := allocTemp pool₃
    let out₄ := out₃ ++ [irLine ["loadVet".toList, addr, res, "___".toList]]
    let pool₅ := releaseTemp pool₄ base
    let pool₆ := releaseTemp pool₅ addr
    let pool₇ := releaseIfTemp pool₆ idx
    (res, ⟨pool₇, out₄⟩)
  | .opE op lhs rhs, st =>
    let (lt, st₁) := genExp scope lhs st
    let (rt, st₂) := genExp scope rhs st₁
    let (res, pool₃) := allocTemp st₂.pool
    let out₃ := st₂.out ++ [irLine [cmOpStr op, lt, rt, res]]
    let pool₄ := releaseIfTemp pool₃ lt
    let pool₅ := releaseIfTemp pool₄ rt
    (res, ⟨pool₅, out₃⟩)

/-- The initial 128-slot temporary pool of `init_temp_pool`. -/
def initPool : List Bool := List.replicate 128 false

/-! ### Well-formed emitter output (for the address-alignment analysis) -/

/-- A payload that pass 2 skips and whose line, when unnumbered, leaves the
pass-1 counter untouched: comments, `Func`/placeholder lines, lines with a
colon. -/
def StructTextB (t : List Char) : Bool :=
  t.head? == some '#' || strHas "Func".toList t ||
    strHas "CEHOLDER".toList t || strHasChar ':' t

/-- A real instruction payload: not a comment, no `Func`/`CEHOLDER`, no
colon, at least 3 characters. -/
def RealTextB (t : List Char) : Bool :=
  ¬ (t.head? == some '#') && ¬ strHas "Func".toList t &&
    ¬ strHas "CEHOLDER".toList t && ¬ strHasChar ':' t && t.length ≥ 3

/-- A line that the claim counts as real: neither a comment nor a function
header nor a label line. -/
def claimRealLine (l : AsmLine) : Bool :=
  ¬ (l.text.head? == some '#') && ¬ strHas "Func".toList l.text &&
    ¬ strHasChar ':' l.text

/-- The number of lines the claim counts as real. -/
def claimRealCount (lines : List AsmLine) : Nat :=
  (lines.filter claimRealLine).length

/-- The numbered lines of an assembly file, in order. -/
def numberedLines (lines : List AsmLine) : List AsmLine :=
  lines.filter (fun l => l.num.isSome)

/-- The number of numbered lines. -/
def numberedCount (lines : List AsmLine) : Nat := (numberedLines lines).length

/-- Well-formed emitter output after the leading entry jump, starting after
instruction number `k`: numbered lines carry consecutive numbers `k+1`,
`k+2`, …, each being a numbered comment or a real instruction; unnumbered
lines are structural (headers, labels); the output ends with a numbered real
instruction. -/
inductive WFBody : Nat → List AsmLine → Prop where
  | last (k : Nat) (l : AsmLine) (hn : l.num = some (k + 1))
      (hr : RealTextB l.text = true) : WFBody k [l]
  | structural (k : Nat) (l : AsmLine) (rest : List AsmLine)
      (hn : l.num = none) (hs : StructTextB l.text = true)
      (h : WFBody k rest) : WFBody k (l :: rest)
  | commentLine (k : Nat) (l : AsmLine) (rest : List AsmLine)
      (hn : l.num = some (k + 1)) (hc : l.text.head? = some '#')
      (h : WFBody (k + 1) rest) : WFBody k (l :: rest)
  | realLine (k : Nat) (l : AsmLine) (rest : List AsmLine)
      (hn : l.num = some (k + 1)) (hr : RealTextB l.text = true)
      (h : WFBody (k + 1) rest) : WFBody k (l :: rest)

/-! ### The operand set of a source line, per the fixed table

For the round-trip analysis the operands of an assembly line are the values
the `parseInstruction` switch reads for its mnemonic, in source order, each
paired with the size of the field it is packed into (64 for register and
6-bit address fields, 256 for shift amounts, 16384 for 14-bit immediates). -/
def origOperandVals (labels : BLabels) (e : PInstr)
    (toks : List (List Char)) : List (Int × Nat) :=
  let pr := fun i => (parseRegister (toks.getD i []), 64)
  let pim := fun i b => (parseImmediate labels (toks.getD i []), b)
  if e.mnemonic == "add" || e.mnemonic == "sub" || e.mnemonic == "and" ||
     e.mnemonic == "or" || e.mnemonic == "slt" then [pr 1, pr 2, pr 3]
  else if e.mnemonic == "mult" || e.mnemonic == "div" ||
     e.mnemonic == "move" then [pr 1, pr 2]
  else if e.mnemonic == "mfhi" || e.mnemonic == "mflo" ||
     e.mnemonic == "jr" || e.mnemonic == "jalr" ||
     e.mnemonic == "outputreg" || e.mnemonic == "input" then [pr 1]
  else if e.mnemonic == "sll" || e.mnemonic == "srl" then
    [pr 1, pr 2, pim 3 256]
  else if branchMnems.contains e.mnemonic then [pr 1, pr 2, pim 3 64]
  else if e.mnemonic == "addi" || e.mnemonic == "subi" ||
     e.mnemonic == "andi" || e.mnemonic == "ori" || e.mnemonic == "lw" ||
     e.mnemonic == "sw" then [pr 1, pr 2, pim 3 16384]
  else if e.mnemonic == "li" || e.mnemonic == "la" then [pr 1, pim 2 16384]
  else if e.mnemonic == "outputmem" then [pr 1, pim 2 16384]
  else if e.mnemonic == "j" || e.mnemonic == "jal" then [pim 1 64]
  else []

/-! ## Theorems -/

/-! ### Field-packing arithmetic -/

theorem shiftLeft_or_small {k : Nat} (x : Nat) {y : Nat} (hy : y < 2 ^ k) :
    (x <<< k) ||| y = x * 2 ^ k + y := by
  rw [Nat.shiftLeft_eq, Nat.mul_comm, ← Nat.mul_add_lt_is_or hy, Nat.mul_comm]

theorem pack5_eq_sum (a b c d e : Nat) (hb : b < 64) (hc : c < 64)
    (hd : d < 64) (he : e < 256) :
    ((((a <<< 26) ||| (b <<< 20)) ||| (c <<< 14)) ||| (d <<< 8)) ||| e
      = a * 2 ^ 26 + b * 2 ^ 20 + c * 2 ^ 14 + d * 2 ^ 8 + e := by
  rw [Nat.or_assoc, Nat.or_assoc, Nat.or_assoc]
  rw [shiftLeft_or_small d (show e < 2 ^ 8 by omega)]
  rw [shiftLeft_or_small c (show d * 2 ^ 8 + e < 2 ^ 14 by omega)]
  rw [shiftLeft_or_small b (show c * 2 ^ 14 + (d * 2 ^ 8 + e) < 2 ^ 20 by omega)]
  rw [shiftLeft_or_small a
    (show b * 2 ^ 20 + (c * 2 ^ 14 + (d * 2 ^ 8 + e)) < 2 ^ 26 by omega)]
  ring

theorem pack4_eq_sum (a b c e : Nat) (hb : b < 64) (hc : c < 64)
    (he : e < 2 ^ 14) :
    (((a <<< 26) ||| (b <<< 20)) ||| (c <<< 14)) ||| e
      = a * 2 ^ 26 + b * 2 ^ 20 + c * 2 ^ 14 + e := by
  rw [Nat.or_assoc, Nat.or_assoc]
  rw [shiftLeft_or_small c he]
  rw [shiftLeft_or_small b (show c * 2 ^ 14 + e < 2 ^ 20 by omega)]
  rw [shiftLeft_or_small a (show b * 2 ^ 20 + (c * 2 ^ 14 + e) < 2 ^ 26 by omega)]
  ring

theorem pack2_eq_sum (a e : Nat) (he : e < 2 ^ 26) :
    (a <<< 26) ||| e = a * 2 ^ 26 + e := shiftLeft_or_small a he

theorem castU32_and_mask (x : Int) (k : Nat) (hk : k ≤ 32) :
    castU32 x &&& (2 ^ k - 1) = (x % ((2 ^ k : Nat) : Int)).toNat := by
  rw [Nat.and_pow_two_sub_one_eq_mod, castU32]
  have h32 : ((2 : Int) ^ 32) ≠ 0 := by norm_num
  have hnn : (0 : Int) ≤ x % 2 ^ 32 := Int.emod_nonneg x h32
  have heq : ((x % 2 ^ 32).toNat : Int) = x % 2 ^ 32 := Int.toNat_of_nonneg hnn
  have hdvd : ((2 ^ k : Nat) : Int) ∣ (2 : Int) ^ 32 := by
    push_cast
    exact pow_dvd_pow 2 hk
  have hmm : x % 2 ^ 32 % ((2 ^ k : Nat) : Int) = x % ((2 ^ k : Nat) : Int) :=
    Int.emod_emod_of_dvd x hdvd
  have hk0 : (0 : Int) < ((2 ^ k : Nat) : Int) := by positivity
  have goalInt : (((x % 2 ^ 32).toNat % 2 ^ k : Nat) : Int)
      = x % ((2 ^ k : Nat) : Int) := by
    push_cast
    have hnn' : (0 : Int) ≤ x % 4294967296 := by
      have h := hnn
      norm_num at h
      exact h
    rw [Int.toNat_of_nonneg hnn']
    have hmm2 : x % 4294967296 % 2 ^ k = x % 2 ^ k := by
      have h := hmm
      push_cast at h
      exact h
    exact hmm2
  have hnn2 : (0 : Int) ≤ x % ((2 ^ k : Nat) : Int) :=
    Int.emod_nonneg x (by positivity)
  omega

theorem castU32_and_63 (x : Int) :
    castU32 x &&& 63 = (x % 64).toNat := by
  have := castU32_and_mask x 6 (by norm_num)
  norm_num at this ⊢
  exact this

theorem castU32_and_16383 (x : Int) :
    castU32 x &&& 16383 = (x % 16384).toNat := by
  have := castU32_and_mask x 14 (by norm_num)
  norm_num at this ⊢
  exact this

theorem castU32_and_255 (x : Int) :
    castU32 x &&& 255 = (x % 256).toNat := by
  have := castU32_and_mask x 8 (by norm_num)
  norm_num at this ⊢
  exact this

theorem nat_and_63 (x : Nat) : x &&& 63 = x % 64 := by
  have := Nat.and_pow_two_sub_one_eq_mod x 6
  norm_num at this
  exact this

theorem emod_64_toNat_lt (x : Int) : (x % 64).toNat < 64 := by
  have h : (0:Int) ≤ x % 64 := Int.emod_nonneg x (by norm_num)
  have h2 : x % 64 < 64 := Int.emod_lt_of_pos x (by norm_num)
  omega

theorem emod_256_toNat_lt (x : Int) : (x % 256).toNat < 256 := by
  have h : (0:Int) ≤ x % 256 := Int.emod_nonneg x (by norm_num)
  have h2 : x % 256 < 256 := Int.emod_lt_of_pos x (by norm_num)
  omega

theorem emod_16384_toNat_lt (x : Int) : (x % 16384).toNat < 16384 := by
  have h : (0:Int) ≤ x % 16384 := Int.emod_nonneg x (by norm_num)
  have h2 : x % 16384 < 16384 := Int.emod_lt_of_pos x (by norm_num)
  omega

/-- Arithmetic form of `generateRType`. -/
theorem generateRType_eq_sum (e : PInstr) (rs rt rd shamt : Int) :
    generateRType e rs rt rd shamt
      = (e.opcode % 64) * 2 ^ 26 + (rs % 64).toNat * 2 ^ 20 +
        (rt % 64).toNat * 2 ^ 14 + (rd % 64).toNat * 2 ^ 8 +
        (shamt % 256).toNat := by
  rw [generateRType]
  rw [show (0x3F : Nat) = 63 from rfl, show (0xFF : Nat) = 255 from rfl]
  rw [nat_and_63, castU32_and_63, castU32_and_63, castU32_and_63,
    castU32_and_255]
  exact pack5_eq_sum _ _ _ _ _ (emod_64_toNat_lt rs) (emod_64_toNat_lt rt)
    (emod_64_toNat_lt rd) (emod_256_toNat_lt shamt)

/-- Arithmetic form of `generateIType` for non-branch mnemonics. -/
theorem generateIType_eq_sum (e : PInstr) (rs rt imm : Int)
    (hnb : branchMnems.contains e.mnemonic = false) :
    generateIType e rs rt imm
      = (e.opcode % 64) * 2 ^ 26 + (rs % 64).toNat * 2 ^ 20 +
        (rt % 64).toNat * 2 ^ 14 + (imm % 16384).toNat := by
  rw [generateIType, hnb]
  simp only [Bool.false_eq_true, if_false]
  rw [show (0x3F : Nat) = 63 from rfl, show (0x3FFF : Nat) = 16383 from rfl]
  rw [nat_and_63, castU32_and_63, castU32_and_63, castU32_and_16383]
  exact pack4_eq_sum _ _ _ _ (emod_64_toNat_lt rs) (emod_64_toNat_lt rt)
    (emod_16384_toNat_lt imm)

/-- Arithmetic form of `generateIType` for branch mnemonics: the address
goes to bits `[5:0]`. -/
theorem generateIType_branch_eq_sum (e : PInstr) (rs rt imm : Int)
    (hb : branchMnems.contains e.mnemonic = true) :
    generateIType e rs rt imm
      = (e.opcode % 64) * 2 ^ 26 + (rs % 64).toNat * 2 ^ 20 +
        (rt % 64).toNat * 2 ^ 14 + (imm % 64).toNat := by
  rw [generateIType, hb]
  simp only [if_true]
  rw [show (0x3F : Nat) = 63 from rfl]
  rw [nat_and_63, castU32_and_63, castU32_and_63, castU32_and_63]
  exact pack4_eq_sum _ _ _ _ (emod_64_toNat_lt rs) (emod_64_toNat_lt rt)
    (by have := emod_64_toNat_lt imm; omega)

/-- Arithmetic form of `generateJType`. -/
theorem generateJType_eq_sum (e : PInstr) (addr : Int) :
    generateJType e addr = (e.opcode % 64) * 2 ^ 26 + (addr % 64).toNat := by
  rw [generateJType]
  rw [show (0x3F : Nat) = 63 from rfl]
  rw [nat_and_63, castU32_and_63]
  exact pack2_eq_sum _ _ (by have := emod_64_toNat_lt addr; omega)

theorem nat_and_255 (x : Nat) : x &&& 255 = x % 256 := by
  have := Nat.and_pow_two_sub_one_eq_mod x 8
  norm_num at this
  exact this

theorem nat_and_16383 (x : Nat) : x &&& 16383 = x % 16384 := by
  have := Nat.and_pow_two_sub_one_eq_mod x 14
  norm_num at this
  exact this

/-- All field extractions on an R-type word. -/
theorem generateRType_fields (e : PInstr) (rs rt rd shamt : Int) :
    opcodeField (generateRType e rs rt rd shamt) = e.opcode % 64 ∧
    rsField (generateRType e rs rt rd shamt) = (rs % 64).toNat ∧
    rtField (generateRType e rs rt rd shamt) = (rt % 64).toNat ∧
    rdField (generateRType e rs rt rd shamt) = (rd % 64).toNat ∧
    generateRType e rs rt rd shamt &&& 255 = (shamt % 256).toNat ∧
    generateRType e rs rt rd shamt < 2 ^ 32 := by
  have h1 := emod_64_toNat_lt rs
  have h2 := emod_64_toNat_lt rt
  have h3 := emod_64_toNat_lt rd
  have h4 := emod_256_toNat_lt shamt
  have h5 : e.opcode % 64 < 64 := Nat.mod_lt _ (by norm_num)
  rw [opcodeField, rsField, rtField, rdField, generateRType_eq_sum]
  rw [Nat.shiftRight_eq_div_pow, Nat.shiftRight_eq_div_pow,
    Nat.shiftRight_eq_div_pow, Nat.shiftRight_eq_div_pow]
  rw [show (0x3F : Nat) = 63 from rfl, nat_and_63, nat_and_63, nat_and_63,
    nat_and_63, nat_and_255]
  norm_num
  omega

/-- All field extractions on a non-branch I-type word. -/
theorem generateIType_fields (e : PInstr) (rs rt imm : Int)
    (hnb : branchMnems.contains e.mnemonic = false) :
    opcodeField (generateIType e rs rt imm) = e.opcode % 64 ∧
    rsField (generateIType e rs rt imm) = (rs % 64).toNat ∧
    rtField (generateIType e rs rt imm) = (rt % 64).toNat ∧
    immField (generateIType e rs rt imm) = (imm % 16384).toNat ∧
    generateIType e rs rt imm < 2 ^ 32 := by
  have h1 := emod_64_toNat_lt rs
  have h2 := emod_64_toNat_lt rt
  have h4 := emod_16384_toNat_lt imm
  have h5 : e.opcode % 64 < 64 := Nat.mod_lt _ (by norm_num)
  rw [opcodeField, rsField, rtField, immField, generateIType_eq_sum e rs rt imm hnb]
  rw [Nat.shiftRight_eq_div_pow, Nat.shiftRight_eq_div_pow,
    Nat.shiftRight_eq_div_pow]
  rw [show (0x3F : Nat) = 63 from rfl, show (0x3FFF : Nat) = 16383 from rfl,
    nat_and_63, nat_and_63, nat_and_63, nat_and_16383]
  norm_num
  omega

/-- All field extractions on a branch I-type word, including that the bits
`[13:6]` are unused (zero). -/
theorem generateIType_branch_fields (e : PInstr) (rs rt imm : Int)
    (hb : branchMnems.contains e.mnemonic = true) :
    opcodeField (generateIType e rs rt imm) = e.opcode % 64 ∧
    rsField (generateIType e rs rt imm) = (rs % 64).toNat ∧
    rtField (generateIType e rs rt imm) = (rt % 64).toNat ∧
    addrField (generateIType e rs rt imm) = (imm % 64).toNat ∧
    (generateIType e rs rt imm >>> 6) &&& 255 = 0 ∧
    generateIType e rs rt imm < 2 ^ 32 := by
  have h1 := emod_64_toNat_lt rs
  have h2 := emod_64_toNat_lt rt
  have h4 := emod_64_toNat_lt imm
  have h5 : e.opcode % 64 < 64 := Nat.mod_lt _ (by norm_num)
  rw [opcodeField, rsField, rtField, addrField,
    generateIType_branch_eq_sum e rs rt imm hb]
  rw [Nat.shiftRight_eq_div_pow, Nat.shiftRight_eq_div_pow,
    Nat.shiftRight_eq_div_pow, Nat.shiftRight_eq_div_pow]
  rw [show (0x3F : Nat) = 63 from rfl, nat_and_63, nat_and_63, nat_and_63,
    nat_and_63, nat_and_255]
  norm_num
  omega

/-- All field extractions on a J-type word, including that bits `[25:6]`
are unused (zero). -/
theorem generateJType_fields (e : PInstr) (addr : Int) :
    opcodeField (generateJType e addr) = e.opcode % 64 ∧
    addrField (generateJType e addr) = (addr % 64).toNat ∧
    (generateJType e addr >>> 6) % 2 ^ 20 = 0 ∧
    generateJType e addr < 2 ^ 32 := by
  have h4 := emod_64_toNat_lt addr
  have h5 : e.opcode % 64 < 64 := Nat.mod_lt _ (by norm_num)
  rw [opcodeField, addrField, generateJType_eq_sum]
  rw [Nat.shiftRight_eq_div_pow, Nat.shiftRight_eq_div_pow]
  rw [show (0x3F : Nat) = 63 from rfl, nat_and_63, nat_and_63]
  norm_num
  omega

/-! ### Claim C3: instruction formats -/

/-- C3: every instruction accepted by the binary encoder is packed into a
32-bit word according to its format: R-type as opcode[31:26], rs[25:20],
rt[19:14], rd[13:8], unused/shift[7:0]; I-type as opcode[31:26], rs[25:20],
rt[19:14], immediate[13:0], except branch instructions, which place a 6-bit
address field in the low bits (bits [13:6] unused); J-type as opcode[31:26],
unused[25:6], address[5:0]. -/
theorem claim_c3 (e : PInstr) (he : e ∈ instructions)
    (rs rt rd shamt imm addr : Int)
    (hrs0 : 0 ≤ rs) (hrs : rs < 64) (hrt0 : 0 ≤ rt) (hrt : rt < 64)
    (hrd0 : 0 ≤ rd) (hrd : rd < 64) (hsh0 : 0 ≤ shamt) (hsh : shamt < 256)
    (him0 : 0 ≤ imm) (him : imm < 16384) (had0 : 0 ≤ addr) (had : addr < 64) :
    (e.fmt = IFormat.fmtR →
      opcodeField (generateRType e rs rt rd shamt) = e.opcode ∧
      rsField (generateRType e rs rt rd shamt) = rs.toNat ∧
      rtField (generateRType e rs rt rd shamt) = rt.toNat ∧
      rdField (generateRType e rs rt rd shamt) = rd.toNat ∧
      generateRType e rs rt rd shamt &&& 255 = shamt.toNat ∧
      generateRType e rs rt rd shamt < 2 ^ 32) ∧
    (e.fmt = IFormat.fmtI → branchMnems.contains e.mnemonic = false →
      opcodeField (generateIType e rs rt imm) = e.opcode ∧
      rsField (generateIType e rs rt imm) = rs.toNat ∧
      rtField (generateIType e rs rt imm) = rt.toNat ∧
      immField (generateIType e rs rt imm) = imm.toNat ∧
      generateIType e rs rt imm < 2 ^ 32) ∧
    (e.fmt = IFormat.fmtI → branchMnems.contains e.mnemonic = true →
      opcodeField (generateIType e rs rt addr) = e.opcode ∧
      rsField (generateIType e rs rt addr) = rs.toNat ∧
      rtField (generateIType e rs rt addr) = rt.toNat ∧
      addrField (generateIType e rs rt addr) = addr.toNat ∧
      (generateIType e rs rt addr >>> 6) &&& 255 = 0 ∧
      generateIType e rs rt addr < 2 ^ 32) ∧
    (e.fmt = IFormat.fmtJ →
      opcodeField (generateJType e addr) = e.opcode ∧
      addrField (generateJType e addr) = addr.toNat ∧
      (generateJType e addr >>> 6) % 2 ^ 20 = 0 ∧
      generateJType e addr < 2 ^ 32) := by
  have hop : e.opcode < 64 := by fin_cases he <;> norm_num
  refine ⟨fun _ => ?_, fun _ hnb => ?_, fun _ hb => ?_, fun _ => ?_⟩
  · have h := generateRType_fields e rs rt rd shamt
    rw [Int.emod_eq_of_lt hrs0 hrs, Int.emod_eq_of_lt hrt0 hrt,
      Int.emod_eq_of_lt hrd0 hrd, Int.emod_eq_of_lt hsh0 hsh,
      Nat.mod_eq_of_lt hop] at h
    exact h
  · have h := generateIType_fields e rs rt imm hnb
    rw [Int.emod_eq_of_lt hrs0 hrs, Int.emod_eq_of_lt hrt0 hrt,
      Int.emod_eq_of_lt him0 him, Nat.mod_eq_of_lt hop] at h
    exact h
  · have h := generateIType_branch_fields e rs rt addr hb
    rw [Int.emod_eq_of_lt hrs0 hrs, Int.emod_eq_of_lt hrt0 hrt,
      Int.emod_eq_of_lt had0 had, Nat.mod_eq_of_lt hop] at h
    exact h
  · have h := generateJType_fields e addr
    rw [Int.emod_eq_of_lt had0 had, Nat.mod_eq_of_lt hop] at h
    exact h

/-- Witness for C3 at a concrete instruction: `add r-fields 1/2/3`,
shift 0. -/
theorem claim_c3_witness :
    opcodeField (generateRType ⟨"add", 0x00, IFormat.fmtR⟩ 1 2 3 4) = 0 ∧
    rsField (generateRType ⟨"add", 0x00, IFormat.fmtR⟩ 1 2 3 4) = 1 ∧
    rtField (generateRType ⟨"add", 0x00, IFormat.fmtR⟩ 1 2 3 4) = 2 ∧
    rdField (generateRType ⟨"add", 0x00, IFormat.fmtR⟩ 1 2 3 4) = 3 := by
  have h := (claim_c3 ⟨"add", 0x00, IFormat.fmtR⟩ (by decide) 1 2 3 4 5 6
    (by norm_num) (by norm_num) (by norm_num) (by norm_num) (by norm_num)
    (by norm_num) (by norm_num) (by norm_num) (by norm_num) (by norm_num)
    (by norm_num) (by norm_num)).1 rfl
  exact ⟨h.1, h.2.1, h.2.2.1, h.2.2.2.1⟩

/-! ### Claim C9: immediates are reduced modulo the field width -/

/-- C9: the encoder packs every non-branch I-type immediate as its value
reduced modulo 2^14, every branch address field and every J-type address
field modulo 2^6, for arbitrary (in particular negative) operand values with
no range or sign check; `addi r30 r30 -1` gets the 14-bit field 16383. -/
theorem claim_c9 :
    (∀ e ∈ instructions, e.fmt = IFormat.fmtI →
      ∀ rs rt imm : Int,
        (branchMnems.contains e.mnemonic = false →
          immField (generateIType e rs rt imm) = (imm % 16384).toNat) ∧
        (branchMnems.contains e.mnemonic = true →
          addrField (generateIType e rs rt imm) = (imm % 64).toNat)) ∧
    (∀ e ∈ instructions, e.fmt = IFormat.fmtJ →
      ∀ addr : Int, addrField (generateJType e addr) = (addr % 64).toNat) ∧
    immField (encodeOperands [] ⟨"addi", 0x0F, IFormat.fmtI⟩
      (tokenize "addi r30 r30 -1".toList)) = 16383 := by
  refine ⟨fun e _ _ rs rt imm => ⟨fun hnb => ?_, fun hb => ?_⟩,
    fun e _ _ addr => ?_, ?_⟩
  · exact (generateIType_fields e rs rt imm hnb).2.2.2.1
  · exact (generateIType_branch_fields e rs rt imm hb).2.2.2.1
  · exact (generateJType_fields e addr).2.1
  · decide

/-- Witness for C9: a branch address of -3 lands in the 6-bit field as 61,
and a plain immediate of -1 as 16383. -/
theorem claim_c9_witness :
    addrField (generateIType ⟨"beq", 0x13, IFormat.fmtI⟩ 1 2 (-3)) = 61 ∧
    immField (generateIType ⟨"li", 0x1B, IFormat.fmtI⟩ 0 1 (-1)) = 16383 := by
  constructor
  · have h := ((claim_c9.1 ⟨"beq", 0x13, IFormat.fmtI⟩ (by decide) rfl
      1 2 (-3)).2 (by decide))
    rw [h]
    decide
  · have h := ((claim_c9.1 ⟨"li", 0x1B, IFormat.fmtI⟩ (by decide) rfl
      0 1 (-1)).1 (by decide))
    rw [h]
    decide

/-! ### Claim C10: malformed register operands parse as register 0 -/

/-- C10: every operand string shorter than two characters, or not beginning
with `r` or `R`, makes `parseRegister` return 0 — the number of the
hard-wired zero register — with no error reported. -/
theorem claim_c10 (s : List Char)
    (h : s.length < 2 ∨ (s.head? ≠ some 'r' ∧ s.head? ≠ some 'R')) :
    parseRegister s = 0 := by
  rcases s with _ | ⟨c, rest⟩
  · simp [parseRegister]
  · rcases h with hlen | ⟨h1, h2⟩
    · rw [parseRegister, if_pos hlen]
    · rw [parseRegister]
      split
      · rfl
      · simp only [List.head?] at h1 h2
        have hc1 : c ≠ 'r' := fun hh => h1 (by rw [hh])
        have hc2 : c ≠ 'R' := fun hh => h2 (by rw [hh])
        simp [hc1, hc2]

/-- Witness for C10: `"x1"` (wrong initial), `"r"` (too short) and `""`
(missing operand) all parse as register 0. -/
theorem claim_c10_witness :
    parseRegister "x1".toList = 0 ∧ parseRegister "r".toList = 0 ∧
    parseRegister [] = 0 :=
  ⟨claim_c10 "x1".toList (Or.inr (by decide)),
   claim_c10 "r".toList (Or.inl (by decide)),
   claim_c10 [] (Or.inl (by decide))⟩

/-! ### Claim C6: the validation gate and the begin/end balance check -/

/-- C6 (code bug): the emitter writes `funInicio`/`funFim` function markers,
but `validate_ir_file` counts only `FUNC_BEGIN`/`END_FUNC` substrings.  On an
emitted IR file consisting of a single unmatched `funInicio` marker the
begin/end markers are unbalanced (1 vs 0), yet validation reports zero errors
and the assembly/binary stages run — contradicting the claim that unbalanced
begin/end markers in the emitted IR are fatal.  (The converse gate direction
does hold: `codeGen` runs the assembly stage exactly when the reported error
count is zero, which is what `assemblyStageRuns` states.) -/
theorem claim_c6 :
    emittedBeginCount [funInicioLine "f".toList] = 1 ∧
    emittedEndCount [funInicioLine "f".toList] = 0 ∧
    validateIRFile [funInicioLine "f".toList] = 0 ∧
    assemblyStageRuns [funInicioLine "f".toList] = true ∧
    validateIRFile ["FUNC_BEGIN f, 0, __, __".toList] = 1 ∧
    assemblyStageRuns ["FUNC_BEGIN f, 0, __, __".toList] = false := by
  decide

/-! ### Claim C7: unknown IR opcodes become numbered comment placeholders -/

/-- C7: an IR opcode handled by none of the explicit `processIRLine` branches
(and other than the silently skipped `allocaMemVar`) reaches the final
`else`, which emits exactly one numbered comment placeholder
`"# Unknown IR: <line>"` and advances the instruction counter; the binary
encoder parses any numbered comment line as the all-zero no-op word and
emits it, so the line consumes its address slot instead of being dropped. -/
theorem claim_c7 (op line : List Char) (inFunc : Bool) (counter : Nat)
    (labels : BLabels) (ws : List Nat)
    (_h : irHandled inFunc op = false) (hop : op ≠ "allocaMemVar".toList) :
    irFallbackEmit counter op line
      = (counter + 1, [⟨some counter, "# Unknown IR: ".toList ++ line⟩]) ∧
    parseInstructionLine labels ("# Unknown IR: ".toList ++ line) = some 0 ∧
    pass2Step labels ws ⟨some counter, "# Unknown IR: ".toList ++ line⟩
      = ws ++ [0] := by
  refine ⟨?_, ?_, ?_⟩
  · rw [irFallbackEmit]
    rw [if_neg (by simpa using hop)]
  · rw [parseInstructionLine]
    rfl
  · rw [pass2Step]
    have hp : parseInstructionLine labels ("# Unknown IR: ".toList ++ line)
        = some 0 := by
      rw [parseInstructionLine]
      rfl
    rw [hp]
    rfl

/-- Witness for C7: the unknown opcode `frobnicate`. -/
theorem claim_c7_witness :
    irFallbackEmit 7 "frobnicate".toList "frobnicate a b c".toList
      = (8, [⟨some 7, "# Unknown IR: frobnicate a b c".toList⟩]) ∧
    parseInstructionLine [] "# Unknown IR: frobnicate a b c".toList
      = some 0 ∧
    pass2Step [] [] ⟨some 7, "# Unknown IR: frobnicate a b c".toList⟩
      = [0] := by
  have h := claim_c7 "frobnicate".toList "frobnicate a b c".toList false 7
    [] [] (by decide) (by decide)
  refine ⟨?_, ?_, ?_⟩
  · rw [h.1]
    decide
  · have h2 := h.2.1
    have he : "# Unknown IR: ".toList ++ "frobnicate a b c".toList
        = "# Unknown IR: frobnicate a b c".toList := by decide
    rw [he] at h2
    exact h2
  · have h3 := h.2.2
    have he : "# Unknown IR: ".toList ++ "frobnicate a b c".toList
        = "# Unknown IR: frobnicate a b c".toList := by decide
    rw [he] at h3
    simpa using h3

/-! ### Claim C8: expression-leaf lowering -/

/-- C8 counterexample: lowering the scalar-variable leaf `x` does not return
it by name — it allocates the temporary `t0`, emits an explicit
`loadVar f x t0`, and returns `t0`. -/
theorem claim_c8_counterexample :
    (genExp "f".toList (ExpNode.varSimple "x".toList) ⟨initPool, []⟩).1
      = "t0".toList ∧
    (genExp "f".toList (ExpNode.varSimple "x".toList) ⟨initPool, []⟩).2.out
      = ["loadVar f x t0".toList] ∧
    "t0".toList ≠ "x".toList := by
  decide

/-- C8 (amended): constant leaves are returned by literal value with nothing
emitted; scalar-variable leaves are materialised immediately — a fresh
temporary is allocated, one explicit `loadVar` is emitted, and the temporary
(not the variable's name) is returned; array-access leaves are materialised
with a base `loadVar`, an address `add` and a `loadVet` into the returned
fresh temporary. -/
theorem claim_c8 (scope name : List Char) (st : GenState) (idx : ExpNode)
    (v : Int) :
    genExp scope (ExpNode.constE v) st = (intToChars v, st) ∧
    (genExp scope (ExpNode.varSimple name) st).1 = (allocTemp st.pool).1 ∧
    (genExp scope (ExpNode.varSimple name) st).1.head? = some 't' ∧
    (genExp scope (ExpNode.varSimple name) st).2.out
      = st.out ++
        [irLine ["loadVar".toList, scope, name, (allocTemp st.pool).1]] ∧
    ((genExp scope (ExpNode.varArr name idx) st).1
        = (allocTemp (allocTemp (allocTemp
            (genExp scope idx st).2.pool).2).2).1 ∧
      (genExp scope (ExpNode.varArr name idx) st).1.head? = some 't' ∧
      (genExp scope (ExpNode.varArr name idx) st).2.out
        = (genExp scope idx st).2.out ++
          [irLine ["loadVar".toList, scope, name,
             (allocTemp (genExp scope idx st).2.pool).1],
           irLine ["add".toList, (allocTemp (genExp scope idx st).2.pool).1,
             (genExp scope idx st).1,
             (allocTemp (allocTemp (genExp scope idx st).2.pool).2).1],
           irLine ["loadVet".toList,
             (allocTemp (allocTemp (genExp scope idx st).2.pool).2).1,
             (allocTemp (allocTemp (allocTemp
               (genExp scope idx st).2.pool).2).2).1, "___".toList]]) := by
  have hhead : ∀ pool : List Bool, (allocTemp pool).1.head? = some 't' := by
    intro pool
    rw [allocTemp]
    rcases h : pool.findIdx? (fun b => !b) with _ | i
    · rfl
    · rfl
  refine ⟨rfl, ?_, ?_, ?_, ?_, ?_, ?_⟩
  · rw [genExp]
  · rw [genExp]
    exact hhead st.pool
  · rw [genExp]
  · rw [genExp]
  · rw [genExp]
    exact hhead _
  · rw [genExp]
    rcases hg : genExp scope idx st with ⟨i, st₁⟩
    rcases h2 : allocTemp st₁.pool with ⟨base, pool₂⟩
    rcases h3 : allocTemp pool₂ with ⟨addr, pool₃⟩
    rcases h4 : allocTemp pool₃ with ⟨res, pool₄⟩
    simp [hg, h2, h3, h4]

/-! ### Claim C2: parameter frame slots -/

theorem readReg_writeReg_same (σ : MState) (r : Nat) (v : Int) (hr : r ≠ 0) :
    readReg (writeReg σ r v) r = v := by
  simp [readReg, writeReg, hr]

theorem readReg_writeReg_other (σ : MState) (r r' : Nat) (v : Int)
    (h : r' ≠ r) : readReg (writeReg σ r v) r' = readReg σ r' := by
  simp [readReg, writeReg, h]

theorem readReg_writeMem (σ : MState) (a v : Int) (r : Nat) :
    readReg (writeMem σ a v) r = readReg σ r := by
  simp [readReg, writeMem]

theorem mem_writeReg (σ : MState) (r : Nat) (v : Int) (a : Int) :
    (writeReg σ r v).mem a = σ.mem a := rfl

theorem mem_writeMem_same (σ : MState) (a v : Int) :
    (writeMem σ a v).mem a = v := by
  simp [writeMem]

theorem mem_writeMem_other (σ : MState) (a v b : Int) (h : b ≠ a) :
    (writeMem σ a v).mem b = σ.mem b := by
  simp [writeMem, h]

/-- A step whose memory-write address is not `a` leaves `mem a` unchanged. -/
theorem stepM_mem_of_ne (σ : MState) (i : MInstr) (a : Int)
    (h : memWriteAddr σ i ≠ some a) : (stepM σ i).mem a = σ.mem a := by
  cases i <;> (simp only [stepM, memWriteAddr, mem_writeReg]; try rfl)
  case sw rt base off =>
    apply mem_writeMem_other
    intro hb
    exact h (by rw [memWriteAddr, hb])

/-- Memory preservation: executing any instruction sequence that never
stores to address `a` leaves `mem a` unchanged — in particular, arbitrary
reuse of the argument registers cannot affect a frame slot. -/
theorem execM_mem_of_avoids (l : List MInstr) (σ : MState) (a : Int)
    (h : avoidsAddr l σ a = true) : (execM l σ).mem a = σ.mem a := by
  induction l generalizing σ with
  | nil => rfl
  | cons i rest ih =>
    rw [avoidsAddr, Bool.and_eq_true] at h
    have h1 : memWriteAddr σ i ≠ some a := by
      intro hw
      rw [hw] at h
      simp at h
    calc (execM (i :: rest) σ).mem a = (execM rest (stepM σ i)).mem a := rfl
      _ = (stepM σ i).mem a := ih (stepM σ i) h.2
      _ = σ.mem a := stepM_mem_of_ne σ i a h1

/-- The parameter-offset part of the pending-alloca flush: when the pending
allocas for a scope are exactly the parameter names (in order, no
duplicates), the `j`-th name is assigned offset `j + 1`. -/
theorem flushPendingOffsets_param (pending : List (List Char × List Char))
    (sc : List Char) (names : List (List Char)) (j : Nat) (nm : List Char)
    (hp : pending.filter (fun q => q.1 == sc) = names.map (fun x => (sc, x)))
    (hnd : names.Nodup) (hj : names.get? j = some nm) :
    varOffsetLookup (flushPendingOffsets pending sc) sc nm = some (j + 1) := by
  rw [flushPendingOffsets, hp, varOffsetLookup]
  have key : ∀ (ns : List (List Char)) (k j : Nat) (nm : List Char),
      ns.Nodup → ns.get? j = some nm →
      (((ns.map (fun x => (sc, x))).enumFrom k).map
          (fun e => (sc, e.2.2, e.1 + 1))).find?
          (fun e => e.2.1 == nm && e.1 == sc) = some (sc, nm, k + j + 1) := by
    intro ns
    induction ns with
    | nil => intro k j nm _ hj; simp at hj
    | cons hd tl ih =>
      intro k j nm hnd hj
      rcases j with _ | j
      · simp at hj
        subst hj
        simp [List.find?]
      · have hmem : nm ∈ tl := List.get?_mem hj
        have hne : hd ≠ nm := by
          intro he
          subst he
          exact (List.nodup_cons.mp hnd).1 hmem
        have : (((hd :: tl).map (fun x => (sc, x))).enumFrom k).map
            (fun e => (sc, e.2.2, e.1 + 1))
            = (sc, hd, k + 1) :: ((tl.map (fun x => (sc, x))).enumFrom
                (k + 1)).map (fun e => (sc, e.2.2, e.1 + 1)) := by
          simp [List.enumFrom]
        rw [this, List.find?]
        have hne' : ((sc, hd, k + 1).2.1 == nm && (sc, hd, k + 1).1 == sc)
            = false := by
          simp [hne]
        rw [hne']
        have := ih (k + 1) j nm (List.nodup_cons.mp hnd).2 (by simpa using hj)
        rw [this]
        simp only [Option.some.injEq, Prod.mk.injEq, eq_self_iff_true,
          true_and]
        omega
  rw [List.enum_eq_enumFrom]
  rw [key names 0 j nm hnd hj]
  simp


/-- Pointwise effect of the emitted prologue of a non-`main` function whose
variable-offset table has `p ≤ 2` entries (its parameters, occupying slots
1..p): the stack pointer advances by `p + 1` and slot `i` holds the value the
argument register `rᵢ` had at entry. -/
theorem prologue_exec_props (f : String) (hf' : (f == "main") = false)
    (p : Nat) (hp : p ≤ 2) (σ : MState) :
    readReg (execM (prologueEmit f p) σ) 30 = readReg σ 30 + (p + 1) ∧
    ∀ i : Nat, 1 ≤ i → i ≤ p →
      (execM (prologueEmit f p) σ).mem (readReg σ 30 + (p + 1) + i)
        = readReg σ i := by
  have h30 : (30 : Nat) ≠ 0 := by norm_num
  interval_cases p
  · have hps : prologueEmit f 0 = [.addi 30 30 1, .sw 31 30 0] := by
      rw [prologueEmit, prologueParamSaves, hf']
      rfl
    rw [hps]
    constructor
    · show readReg (stepM (stepM σ (.addi 30 30 1)) (.sw 31 30 0)) 30 = _
      simp only [stepM, readReg_writeMem]
      rw [readReg_writeReg_same _ _ _ h30]
      norm_num
    · intro i hi1 hi2
      omega
  · have hps : prologueEmit f 1
        = [.addi 30 30 2, .sw 31 30 0, .sw 1 30 1] := by
      rw [prologueEmit, prologueParamSaves, hf']
      rfl
    rw [hps]
    have h1 : execM [MInstr.addi 30 30 2, MInstr.sw 31 30 0, MInstr.sw 1 30 1] σ
        = stepM (stepM (stepM σ (.addi 30 30 2)) (.sw 31 30 0)) (.sw 1 30 1) :=
      rfl
    rw [h1]
    set σ₁ := stepM σ (MInstr.addi 30 30 2) with hs1
    have r30₁ : readReg σ₁ 30 = readReg σ 30 + 2 :=
      readReg_writeReg_same _ _ _ h30
    have rk₁ : ∀ k, k ≠ 30 → readReg σ₁ k = readReg σ k := fun k hk =>
      readReg_writeReg_other _ _ _ _ hk
    set σ₂ := stepM σ₁ (MInstr.sw 31 30 0) with hs2
    have hσ₂ : σ₂ = writeMem σ₁ (readReg σ 30 + 2 + 0) (readReg σ₁ 31) := by
      rw [hs2]
      show writeMem σ₁ (readReg σ₁ 30 + 0) (readReg σ₁ 31) = _
      rw [r30₁]
    have r30₂ : readReg σ₂ 30 = readReg σ 30 + 2 := by
      rw [hσ₂, readReg_writeMem, r30₁]
    have rk₂ : ∀ k, readReg σ₂ k = readReg σ₁ k := fun k => by
      rw [hσ₂, readReg_writeMem]
    set σ₃ := stepM σ₂ (MInstr.sw 1 30 1) with hs3
    have hσ₃ : σ₃ = writeMem σ₂ (readReg σ 30 + 2 + 1) (readReg σ₂ 1) := by
      rw [hs3]
      show writeMem σ₂ (readReg σ₂ 30 + 1) (readReg σ₂ 1) = _
      rw [r30₂]
    constructor
    · rw [hσ₃, readReg_writeMem, r30₂]
      norm_num
    · intro i hi1 hi2
      have hi : i = 1 := by omega
      subst hi
      have haddr : readReg σ 30 + ((1 : Nat) + 1) + (1 : Nat)
          = readReg σ 30 + 2 + 1 := by
        push_cast
        ring
      rw [haddr, hσ₃, mem_writeMem_same, rk₂, rk₁ 1 (by norm_num)]
  · have hps : prologueEmit f 2
        = [.addi 30 30 3, .sw 31 30 0, .sw 1 30 1, .sw 2 30 2] := by
      rw [prologueEmit, prologueParamSaves, hf']
      rfl
    rw [hps]
    have h1 : execM [MInstr.addi 30 30 3, MInstr.sw 31 30 0, MInstr.sw 1 30 1,
        MInstr.sw 2 30 2] σ
        = stepM (stepM (stepM (stepM σ (.addi 30 30 3)) (.sw 31 30 0))
            (.sw 1 30 1)) (.sw 2 30 2) := rfl
    rw [h1]
    set σ₁ := stepM σ (MInstr.addi 30 30 3) with hs1
    have r30₁ : readReg σ₁ 30 = readReg σ 30 + 3 :=
      readReg_writeReg_same _ _ _ h30
    have rk₁ : ∀ k, k ≠ 30 → readReg σ₁ k = readReg σ k := fun k hk =>
      readReg_writeReg_other _ _ _ _ hk
    set σ₂ := stepM σ₁ (MInstr.sw 31 30 0) with hs2
    have hσ₂ : σ₂ = writeMem σ₁ (readReg σ 30 + 3 + 0) (readReg σ₁ 31) := by
      rw [hs2]
      show writeMem σ₁ (readReg σ₁ 30 + 0) (readReg σ₁ 31) = _
      rw [r30₁]
    have r30₂ : readReg σ₂ 30 = readReg σ 30 + 3 := by
      rw [hσ₂, readReg_writeMem, r30₁]
    have rk₂ : ∀ k, readReg σ₂ k = readReg σ₁ k := fun k => by
      rw [hσ₂, readReg_writeMem]
    set σ₃ := stepM σ₂ (MInstr.sw 1 30 1) with hs3
    have hσ₃ : σ₃ = writeMem σ₂ (readReg σ 30 + 3 + 1) (readReg σ₂ 1) := by
      rw [hs3]
      show writeMem σ₂ (readReg σ₂ 30 + 1) (readReg σ₂ 1) = _
      rw [r30₂]
    have r30₃ : readReg σ₃ 30 = readReg σ 30 + 3 := by
      rw [hσ₃, readReg_writeMem, r30₂]
    have rk₃ : ∀ k, readReg σ₃ k = readReg σ₂ k := fun k => by
      rw [hσ₃, readReg_writeMem]
    set σ₄ := stepM σ₃ (MInstr.sw 2 30 2) with hs4
    have hσ₄ : σ₄ = writeMem σ₃ (readReg σ 30 + 3 + 2) (readReg σ₃ 2) := by
      rw [hs4]
      show writeMem σ₃ (readReg σ₃ 30 + 2) (readReg σ₃ 2) = _
      rw [r30₃]
    constructor
    · rw [hσ₄, readReg_writeMem, r30₃]
      norm_num
    · intro i hi1 hi2
      interval_cases i
      · have haddr : readReg σ 30 + ((2 : Nat) + 1) + (1 : Nat)
            = readReg σ 30 + 3 + 1 := by
          push_cast
          ring
        rw [haddr, hσ₄]
        rw [mem_writeMem_other _ _ _ _ (by omega)]
        rw [hσ₃, mem_writeMem_same, rk₂, rk₁ 1 (by norm_num)]
      · have haddr : readReg σ 30 + ((2 : Nat) + 1) + (2 : Nat)
            = readReg σ 30 + 3 + 2 := by
          push_cast
          ring
        rw [haddr, hσ₄, mem_writeMem_same, rk₃, rk₂, rk₁ 2 (by norm_num)]

/-- C2 (amended): for a non-`main` function with at most two parameters that
occupy the first variable-offset slots (slot `i` for parameter `i`, as
produced by the pending-alloca flush when the function has no locals),
immediately after the emitted prologue each parameter is stored in its frame
slot and equals the value the corresponding argument register held at entry
(the caller-passed value); the slot keeps that value under any subsequent
instruction sequence that never stores to the slot's address — in particular
under arbitrary reuse of the argument registers and under the function's own
recursive call, whose frame lies above the caller's — and a subsequent
frame-relative load of the slot reads the caller's value back. -/
theorem claim_c2 (f : String) (hf : f ≠ "main") (p : Nat) (hp : p ≤ 2)
    (σ : MState) (i : Nat) (hi1 : 1 ≤ i) (hip : i ≤ p)
    (l : List MInstr) (d : Nat) (hd : d ≠ 0)
    (hl : avoidsAddr l (execM (prologueEmit f p) σ)
      (readReg (execM (prologueEmit f p) σ) 30 + i) = true)
    (hr30 : readReg (execM l (execM (prologueEmit f p) σ)) 30
      = readReg (execM (prologueEmit f p) σ) 30) :
    readReg (execM (prologueEmit f p) σ) 30 = readReg σ 30 + (p + 1) ∧
    (execM (prologueEmit f p) σ).mem
        (readReg (execM (prologueEmit f p) σ) 30 + i) = readReg σ i ∧
    (execM l (execM (prologueEmit f p) σ)).mem
        (readReg (execM (prologueEmit f p) σ) 30 + i) = readReg σ i ∧
    readReg (stepM (execM l (execM (prologueEmit f p) σ))
        (.lw d 30 (Int.ofNat i))) d = readReg σ i ∧
    (∀ (pending : List (List Char × List Char)) (sc : List Char)
        (names : List (List Char)) (j : Nat) (nm : List Char),
        pending.filter (fun q => q.1 == sc) = names.map (fun x => (sc, x)) →
        names.Nodup → names.get? j = some nm →
        varOffsetLookup (flushPendingOffsets pending sc) sc nm
          = some (j + 1)) := by
  have hf' : (f == "main") = false := beq_eq_false_iff_ne.mpr hf
  obtain ⟨h30', hslots⟩ := prologue_exec_props f hf' p hp σ
  have hslot : (execM (prologueEmit f p) σ).mem
      (readReg (execM (prologueEmit f p) σ) 30 + i) = readReg σ i := by
    rw [h30']
    exact hslots i hi1 hip
  have hkeep : (execM l (execM (prologueEmit f p) σ)).mem
      (readReg (execM (prologueEmit f p) σ) 30 + i) = readReg σ i := by
    rw [execM_mem_of_avoids l _ _ hl]
    exact hslot
  refine ⟨h30', hslot, hkeep, ?_, ?_⟩
  · show readReg (writeReg _ d _) d = _
    rw [readReg_writeReg_same _ _ _ hd, hr30]
    exact hkeep
  · intro pending sc names j nm h1 h2 h3
    exact flushPendingOffsets_param pending sc names j nm h1 h2 h3

/-- C2 counterexample for the claim as stated: a non-`main` function with
three parameters.  The prologue saves only `r1` and `r2`; from an entry state
with `r30 = 40`, `r3 = 13` and zeroed memory, the third parameter's slot
(offset 3 of the new frame) still holds 0, not the passed value 13. -/
theorem claim_c2_counterexample :
    readReg (execM (prologueEmit "foo" 3)
        ⟨fun r => (10 : Int) + r, fun _ => 0⟩) 30 = 44 ∧
    readReg (⟨fun r => (10 : Int) + r, fun _ => 0⟩ : MState) 3 = 13 ∧
    (execM (prologueEmit "foo" 3)
        ⟨fun r => (10 : Int) + r, fun _ => 0⟩).mem (44 + 3) = 0 ∧
    ((0 : Int) ≠ 13) := by
  refine ⟨?_, by decide, ?_, by decide⟩ <;> decide

/-- Witness for C2: `gcd(u, v)` with two parameters; after the prologue the
first parameter's slot holds the entry value of `r1` (= 11), and it still
does after `r1` is clobbered and a self-recursive call's prologue and
epilogue run at the next frame; a final `lw` reads 11 back. -/
theorem claim_c2_witness :
    (execM (prologueEmit "gcd" 2)
        ⟨fun r => (10 : Int) + r, fun _ => 0⟩).mem
        (readReg (execM (prologueEmit "gcd" 2)
          ⟨fun r => (10 : Int) + r, fun _ => 0⟩) 30 + 1) = 11 ∧
    readReg (stepM (execM ([.li 1 77, .li 2 88, .jal 9] ++
          prologueEmit "gcd" 2 ++ [.lw 31 30 0, .subi 30 30 3, .jr 31])
        (execM (prologueEmit "gcd" 2)
          ⟨fun r => (10 : Int) + r, fun _ => 0⟩))
        (.lw 5 30 (Int.ofNat 1))) 5 = 11 := by
  have h := claim_c2 "gcd" (by decide) 2 (by norm_num)
    ⟨fun r => (10 : Int) + r, fun _ => 0⟩ 1 (by norm_num) (by norm_num)
    ([.li 1 77, .li 2 88, .jal 9] ++ prologueEmit "gcd" 2 ++
      [.lw 31 30 0, .subi 30 30 3, .jr 31]) 5 (by norm_num)
    (by decide) (by decide)
  have h11 : readReg (⟨fun r => (10 : Int) + r, fun _ => 0⟩ : MState) 1 = 11 := by
    decide
  exact ⟨h11 ▸ h.2.1, h11 ▸ h.2.2.2.1⟩

/-! ### Claim C4: the entry-point fix-up jump -/

theorem findMainAux_skip_pre (pre : List AsmLine) (rest : List AsmLine)
    (hpre : ∀ l ∈ pre, strHas "Func main:".toList l.text = false) :
    findMainAux false (pre ++ rest) = findMainAux false rest := by
  induction pre with
  | nil => rfl
  | cons l tl ih =>
    have hl := hpre l (by simp)
    rw [List.cons_append, findMainAux, hl]
    simp only [Bool.false_eq_true, if_false, Bool.false_and]
    exact ih (fun x hx => hpre x (by simp [hx]))

theorem findMainAux_skip_mid (mid : List AsmLine) (rest : List AsmLine)
    (hmid : ∀ l ∈ mid, l.num = none ∨ strHasChar ':' l.text = true) :
    findMainAux true (mid ++ rest) = findMainAux true rest := by
  induction mid with
  | nil => rfl
  | cons l tl ih =>
    rw [List.cons_append, findMainAux]
    have hcond : (true && l.num.isSome && ¬ strHasChar ':' l.text) = false := by
      rcases hmid l (by simp) with h | h
      · simp [h]
      · simp [h]
    by_cases hm : strHas "Func main:".toList l.text = true
    · rw [if_pos hm]
      exact ih (fun x hx => hmid x (by simp [hx]))
    · rw [if_neg hm, hcond]
      simp only [Bool.false_eq_true, if_false]
      exact ih (fun x hx => hmid x (by simp [hx]))

/-- C4: after emission, the fix-up pass prepends an unnumbered unconditional
jump `j n` where `n` is the instruction number of the first numbered
non-label line following the `Func main:` header (i.e. the address slot of
`main`'s first real instruction), regardless of how many other functions
precede `main`. -/
theorem claim_c4 (pre mid post : List AsmLine) (header firstInstr : AsmLine)
    (n : Nat)
    (hpre : ∀ l ∈ pre, strHas "Func main:".toList l.text = false)
    (hheader : strHas "Func main:".toList header.text = true)
    (hmid : ∀ l ∈ mid, l.num = none ∨ strHasChar ':' l.text = true)
    (hfiNum : firstInstr.num = some n)
    (hfiColon : strHasChar ':' firstInstr.text = false)
    (hfiMain : strHas "Func main:".toList firstInstr.text = false) :
    findMainNum (pre ++ (header :: (mid ++ (firstInstr :: post)))) = some n ∧
    rewriteWithEntryJump (pre ++ (header :: (mid ++ (firstInstr :: post))))
      = entryJumpLine n :: (pre ++ (header :: (mid ++ (firstInstr :: post)))) ∧
    (entryJumpLine n).num = none ∧
    (entryJumpLine n).text = 'j' :: ' ' :: natToChars n := by
  have hfind : findMainNum (pre ++ (header :: (mid ++ (firstInstr :: post))))
      = some n := by
    rw [findMainNum, findMainAux_skip_pre pre _ hpre, findMainAux]
    rw [if_pos hheader, findMainAux_skip_mid mid _ hmid, findMainAux]
    rw [if_neg (by simpa using hfiMain), if_pos (by simp [hfiNum, hfiColon])]
    exact hfiNum
  refine ⟨hfind, ?_, rfl, rfl⟩
  rw [rewriteWithEntryJump, hfind]

/-- Witness for C4: a two-function file where `main` comes second; the
output starts with the unnumbered jump `j 12`, whose encoded word (a J-type
`j` with address field 12) sits at binary address slot 0. -/
theorem claim_c4_witness :
    rewriteWithEntryJump
        [⟨none, "Func gcd:".toList⟩, ⟨some 1, "addi r30 r30 3".toList⟩,
         ⟨none, "Func main:".toList⟩, ⟨none, "L9:".toList⟩,
         ⟨some 12, "addi r30 r30 3".toList⟩, ⟨some 13, "halt".toList⟩]
      = entryJumpLine 12 ::
        [⟨none, "Func gcd:".toList⟩, ⟨some 1, "addi r30 r30 3".toList⟩,
         ⟨none, "Func main:".toList⟩, ⟨none, "L9:".toList⟩,
         ⟨some 12, "addi r30 r30 3".toList⟩, ⟨some 13, "halt".toList⟩] ∧
    (entryJumpLine 12).text = "j 12".toList ∧
    parseInstructionLine [] (entryJumpLine 12).text
      = some (generateJType ⟨"j", 0x1C, IFormat.fmtJ⟩ 12) ∧
    (pass2Words [] (rewriteWithEntryJump
        [⟨none, "Func gcd:".toList⟩, ⟨some 1, "addi r30 r30 3".toList⟩,
         ⟨none, "Func main:".toList⟩, ⟨none, "L9:".toList⟩,
         ⟨some 12, "addi r30 r30 3".toList⟩, ⟨some 13, "halt".toList⟩])).head?
      = some (generateJType ⟨"j", 0x1C, IFormat.fmtJ⟩ 12) := by
  have h := claim_c4
    [⟨none, "Func gcd:".toList⟩, ⟨some 1, "addi r30 r30 3".toList⟩]
    [⟨none, "L9:".toList⟩]
    [⟨some 13, "halt".toList⟩]
    ⟨none, "Func main:".toList⟩ ⟨some 12, "addi r30 r30 3".toList⟩ 12
    (by decide) (by decide) (by decide) rfl (by decide) (by decide)
  have h2 : rewriteWithEntryJump
      [⟨none, "Func gcd:".toList⟩, ⟨some 1, "addi r30 r30 3".toList⟩,
       ⟨none, "Func main:".toList⟩, ⟨none, "L9:".toList⟩,
       ⟨some 12, "addi r30 r30 3".toList⟩, ⟨some 13, "halt".toList⟩]
      = entryJumpLine 12 ::
        [⟨none, "Func gcd:".toList⟩, ⟨some 1, "addi r30 r30 3".toList⟩,
         ⟨none, "Func main:".toList⟩, ⟨none, "L9:".toList⟩,
         ⟨some 12, "addi r30 r30 3".toList⟩, ⟨some 13, "halt".toList⟩] := by
    simpa using h.2.1
  refine ⟨h2, by decide, by decide, ?_⟩
  rw [h2]
  decide

/-! ### Claim C1: address alignment between the two encoder passes -/

theorem pass2Step_append (labels : BLabels) (ws : List Nat) (l : AsmLine) :
    pass2Step labels ws l = ws ++ pass2Step labels [] l := by
  rw [pass2Step, pass2Step]
  rcases parseInstructionLine labels l.text with _ | w
  · simp
  · by_cases h : (w == 0 && l.num == none) = true
    · simp [h]
    · simp [h]

theorem pass2_foldl_append (labels : BLabels) (body : List AsmLine)
    (ws : List Nat) :
    body.foldl (pass2Step labels) ws
      = ws ++ body.foldl (pass2Step labels) [] := by
  induction body generalizing ws with
  | nil => simp [List.foldl]
  | cons l tl ih =>
    rw [List.foldl, List.foldl, ih (pass2Step labels ws l),
      ih (pass2Step labels [] l), pass2Step_append, List.append_assoc]

theorem parse_structural_skip (labels : BLabels) (l : AsmLine)
    (hn : l.num = none) (hs : StructTextB l.text = true) :
    pass2Step labels [] l = [] := by
  rw [pass2Step]
  by_cases h1 : (l.text.head? == some '#') = true
  · rw [parseInstructionLine, if_pos h1]
    simp [hn]
  · by_cases h2 : (strHas "Func".toList l.text ||
        strHas "CEHOLDER".toList l.text) = true
    · rw [parseInstructionLine, if_neg h1, if_pos h2]
    · have hcolon : strHasChar ':' l.text = true := by
        rw [StructTextB] at hs
        rcases Bool.or_eq_true _ _ |>.mp hs with h | h
        · rcases Bool.or_eq_true _ _ |>.mp h with h' | h'
          · rcases Bool.or_eq_true _ _ |>.mp h' with h'' | h''
            · exact absurd h'' h1
            · exact absurd ((Bool.or_eq_true _ _).mpr (Or.inl h'')) h2
          · exact absurd ((Bool.or_eq_true _ _).mpr (Or.inr h')) h2
        · exact h
      rw [parseInstructionLine, if_neg h1, if_neg h2, if_pos hcolon]

theorem parse_real_some (labels : BLabels) (t : List Char)
    (hr : RealTextB t = true) :
    parseInstructionLine labels t
      = some ((parseInstructionLine labels t).getD 0) := by
  rw [RealTextB] at hr
  simp only [Bool.and_eq_true, decide_eq_true_eq] at hr
  obtain ⟨⟨⟨⟨h1, h2⟩, h3⟩, h4⟩, h5⟩ := hr
  have hp : ∃ w, parseInstructionLine labels t = some w := by
    rw [parseInstructionLine]
    rw [if_neg h1]
    rw [if_neg (fun hc => by
      rcases Bool.or_eq_true _ _ |>.mp hc with h | h
      exacts [h2 h, h3 h])]
    rw [if_neg h4]
    rw [if_neg (fun hc => by
      rcases Bool.or_eq_true _ _ |>.mp hc with h | h <;> simp at h <;> omega)]
    rcases htok : tokenize t with _ | ⟨m, args⟩
    · exact ⟨0, rfl⟩
    · rcases hfi : findInstruction m with _ | instr
      · simp only [hfi]
        exact ⟨0, rfl⟩
      · simp only [hfi]
        exact ⟨_, rfl⟩
  obtain ⟨w, hw⟩ := hp
  rw [hw]
  rfl

theorem pass1RealPayload_of_real (t : List Char) (hr : RealTextB t = true) :
    pass1RealPayload t = true := by
  rw [RealTextB] at hr
  simp only [Bool.and_eq_true, decide_eq_true_eq] at hr
  obtain ⟨⟨⟨⟨h1, h2⟩, h3⟩, h4⟩, _⟩ := hr
  rw [pass1RealPayload]
  simp only [Bool.and_eq_true, Bool.not_eq_true']
  exact ⟨⟨⟨Bool.eq_false_iff.mpr h2, Bool.eq_false_iff.mpr h3⟩,
    Bool.eq_false_iff.mpr h4⟩, Bool.eq_false_iff.mpr h1⟩

theorem pass1RealPayload_of_struct (t : List Char)
    (hs : StructTextB t = true) : pass1RealPayload t = false := by
  rw [StructTextB] at hs
  rw [pass1RealPayload]
  simp only [Bool.or_eq_true] at hs
  by_cases h1 : (t.head? == some '#') = true
  · simp only [h1, Bool.not_true, Bool.and_false]
  · by_cases h2 : strHas "Func".toList t = true
    · simp only [h2, Bool.not_true, Bool.false_and, Bool.and_false]
    · by_cases h3 : strHas "CEHOLDER".toList t = true
      · simp only [h3, Bool.not_true, Bool.and_false, Bool.false_and]
      · by_cases h4 : strHasChar ':' t = true
        · simp only [h4, Bool.not_true, Bool.and_false, Bool.false_and]
        · rcases hs with ((hA | hB) | hC) | hD
          exacts [absurd hA h1, absurd hB h2, absurd hC h3, absurd hD h4]

theorem pass1RealPayload_of_comment (t : List Char)
    (hc : t.head? = some '#') : pass1RealPayload t = false := by
  rw [pass1RealPayload]
  have h1 : (t.head? == some '#') = true := by simp [hc]
  simp only [h1, Bool.not_true, Bool.and_false]

theorem pass1Step_pc_structural (st : Nat × BLabels) (l : AsmLine)
    (hn : l.num = none) (hs : StructTextB l.text = true) :
    (pass1Step st l).1 = st.1 := by
  rw [pass1Step]
  simp only [hn, pass1RealPayload_of_struct l.text hs, Bool.and_false,
    Bool.false_eq_true, if_false]

theorem pass1Step_pc_comment (st : Nat × BLabels) (l : AsmLine) (n : Nat)
    (hn : l.num = some n) (hc : l.text.head? = some '#') :
    (pass1Step st l).1 = st.1 := by
  rw [pass1Step]
  simp only [hn, pass1RealPayload_of_comment l.text hc, Bool.and_false,
    Bool.false_eq_true, if_false]

theorem pass1Step_pc_real (st : Nat × BLabels) (l : AsmLine) (n : Nat)
    (hn : l.num = some n) (hr : RealTextB l.text = true) :
    (pass1Step st l).1 = n := by
  rw [pass1Step]
  simp only [hn, pass1RealPayload_of_real l.text hr, if_true]
  simp

theorem numberedLines_cons_none (l : AsmLine) (rest : List AsmLine)
    (hn : l.num = none) : numberedLines (l :: rest) = numberedLines rest := by
  rw [numberedLines, numberedLines, List.filter]
  rw [hn]
  rfl

theorem numberedLines_cons_some (l : AsmLine) (rest : List AsmLine) (n : Nat)
    (hn : l.num = some n) :
    numberedLines (l :: rest) = l :: numberedLines rest := by
  rw [numberedLines, numberedLines, List.filter]
  rw [hn]
  rfl

/-- The words pass 2 emits for a well-formed body: one word per numbered
line, in order. -/
theorem pass2_body (labels : BLabels) (k : Nat) (body : List AsmLine)
    (h : WFBody k body) :
    body.foldl (pass2Step labels) []
      = (numberedLines body).map
          (fun l => (parseInstructionLine labels l.text).getD 0) := by
  induction h with
  | last k l hn hr =>
    show pass2Step labels [] l = _
    rw [pass2Step, numberedLines_cons_some l [] _ hn]
    rw [parse_real_some labels l.text hr]
    simp [hn, numberedLines]
  | structural k l rest hn hs hwf ih =>
    show (l :: rest).foldl (pass2Step labels) [] = _
    rw [List.foldl, parse_structural_skip labels l hn hs,
      numberedLines_cons_none l rest hn]
    exact ih
  | commentLine k l rest hn hc hwf ih =>
    show (l :: rest).foldl (pass2Step labels) [] = _
    have hp : parseInstructionLine labels l.text = some 0 := by
      rw [parseInstructionLine, if_pos (by simp [hc])]
    rw [List.foldl]
    rw [show pass2Step labels [] l = [0] by
      rw [pass2Step, hp]
      simp [hn]]
    rw [pass2_foldl_append labels rest [0],
      numberedLines_cons_some l rest _ hn, List.map, ih, hp]
    rfl
  | realLine k l rest hn hr hwf ih =>
    show (l :: rest).foldl (pass2Step labels) [] = _
    rw [List.foldl]
    rw [show pass2Step labels [] l
        = [(parseInstructionLine labels l.text).getD 0] by
      rw [pass2Step, parse_real_some labels l.text hr]
      simp [hn]]
    rw [pass2_foldl_append labels rest _,
      numberedLines_cons_some l rest _ hn, List.map, ih]
    rfl

/-- The final pass-1 counter over a well-formed body is the number of its
numbered lines (offset by the starting number), independent of the incoming
state. -/
theorem pass1_body (k : Nat) (body : List AsmLine) (h : WFBody k body) :
    ∀ st : Nat × BLabels, (body.foldl pass1Step st).1
      = k + numberedCount body := by
  induction h with
  | last k l hn hr =>
    intro st
    show (pass1Step st l).1 = _
    rw [pass1Step_pc_real st l _ hn hr, numberedCount,
      numberedLines_cons_some l [] _ hn]
    rfl
  | structural k l rest hn hs hwf ih =>
    intro st
    show (rest.foldl pass1Step (pass1Step st l)).1 = _
    rw [ih (pass1Step st l), show numberedCount (l :: rest)
      = numberedCount rest from by
        rw [numberedCount, numberedLines_cons_none l rest hn, numberedCount]]
  | commentLine k l rest hn hc hwf ih =>
    intro st
    show (rest.foldl pass1Step (pass1Step st l)).1 = _
    rw [ih (pass1Step st l), show numberedCount (l :: rest)
      = numberedCount rest + 1 from by
        rw [numberedCount, numberedLines_cons_some l rest _ hn, numberedCount]
        rfl]
    omega
  | realLine k l rest hn hr hwf ih =>
    intro st
    show (rest.foldl pass1Step (pass1Step st l)).1 = _
    rw [ih (pass1Step st l), show numberedCount (l :: rest)
      = numberedCount rest + 1 from by
        rw [numberedCount, numberedLines_cons_some l rest _ hn, numberedCount]
        rfl]
    omega

/-- Every numbered line of a well-formed body carries a number above the
starting number, and sits at the corresponding position among the numbered
lines. -/
theorem wf_numbered_get (k : Nat) (body : List AsmLine) (h : WFBody k body) :
    ∀ l ∈ body, ∀ m, l.num = some m →
      k + 1 ≤ m ∧ (numberedLines body)[m - (k + 1)]? = some l := by
  induction h with
  | last k l hn hr =>
    intro l' hl' m hm
    rcases List.mem_cons.mp hl' with he | he
    · rw [he] at hm ⊢
      rw [hn] at hm
      have hmk : m = k + 1 := by injection hm; omega
      subst hmk
      rw [numberedLines_cons_some l [] _ hn]
      exact ⟨le_refl _, by simp⟩
    · simp at he
  | structural k l rest hn hs hwf ih =>
    intro l' hl' m hm
    rcases List.mem_cons.mp hl' with hl' | hl'
    · subst hl'
      rw [hn] at hm
      exact absurd hm (by simp)
    · rw [numberedLines_cons_none l rest hn]
      exact ih l' hl' m hm
  | commentLine k l rest hn hc hwf ih =>
    intro l' hl' m hm
    rcases List.mem_cons.mp hl' with he | he
    · rw [he] at hm ⊢
      rw [hn] at hm
      have hmk : m = k + 1 := by injection hm; omega
      subst hmk
      rw [numberedLines_cons_some l rest _ hn]
      refine ⟨le_refl _, ?_⟩
      simp
    · obtain ⟨hge, hget⟩ := ih l' he m hm
      rw [numberedLines_cons_some l rest _ hn]
      refine ⟨by omega, ?_⟩
      have hidx : m - (k + 1) = (m - (k + 2)) + 1 := by omega
      rw [hidx]
      simpa using hget
  | realLine k l rest hn hr hwf ih =>
    intro l' hl' m hm
    rcases List.mem_cons.mp hl' with he | he
    · rw [he] at hm ⊢
      rw [hn] at hm
      have hmk : m = k + 1 := by injection hm; omega
      subst hmk
      rw [numberedLines_cons_some l rest _ hn]
      refine ⟨le_refl _, ?_⟩
      simp
    · obtain ⟨hge, hget⟩ := ih l' he m hm
      rw [numberedLines_cons_some l rest _ hn]
      refine ⟨by omega, ?_⟩
      have hidx : m - (k + 1) = (m - (k + 2)) + 1 := by omega
      rw [hidx]
      simpa using hget

/-- C1 (amended): for well-formed emitter output — a leading unnumbered real
instruction (the entry jump) followed by consecutively numbered lines, each a
numbered comment slot or a real instruction, ending in a real instruction,
with headers and labels unnumbered — pass 2 emits exactly `N + 1` words where
`N` is both the number of numbered lines and the final pass-1 address, and
the word of the line numbered `m` sits at binary address `m` (the leading
jump at address 0).  Numbered comment slots count as addresses; the claim's
count of real (non-comment) lines matches only in their absence. -/
theorem claim_c1 (lead : AsmLine) (body : List AsmLine)
    (_hleadNum : lead.num = none) (hleadReal : RealTextB lead.text = true)
    (hw : (parseInstructionLine (pass1 (lead :: body)).2 lead.text).getD 0
      ≠ 0)
    (hwf : WFBody 0 body) :
    (pass2Words (pass1 (lead :: body)).2 (lead :: body)).length
      = numberedCount body + 1 ∧
    (pass1 (lead :: body)).1 = numberedCount body ∧
    (∀ l ∈ body, ∀ m, l.num = some m →
      (pass2Words (pass1 (lead :: body)).2 (lead :: body))[m]?
        = some ((parseInstructionLine (pass1 (lead :: body)).2 l.text).getD
            0)) := by
  set labels := (pass1 (lead :: body)).2 with hlabels
  have hleadStep : pass2Step labels [] lead
      = [(parseInstructionLine labels lead.text).getD 0] := by
    rw [pass2Step, parse_real_some labels lead.text hleadReal]
    simp [hw]
  have hwords : pass2Words labels (lead :: body)
      = (parseInstructionLine labels lead.text).getD 0 ::
        (numberedLines body).map
          (fun l => (parseInstructionLine labels l.text).getD 0) := by
    rw [pass2Words, List.foldl, hleadStep,
      pass2_foldl_append labels body _, pass2_body labels 0 body hwf]
    rfl
  have hcount : (numberedLines body).length = numberedCount body := rfl
  refine ⟨?_, ?_, ?_⟩
  · rw [hwords]
    simp [numberedCount]
  · rw [pass1, List.foldl]
    rw [pass1_body 0 body hwf (pass1Step (0, []) lead)]
    omega
  · intro l hl m hm
    obtain ⟨hge, hget⟩ := wf_numbered_get 0 body hwf l hl m hm
    rw [hwords]
    have hm1 : m = (m - 1) + 1 := by omega
    rw [hm1]
    simp only [List.getElem?_cons_succ]
    rw [List.getElem?_map]
    have : m - (0 + 1) = m - 1 := by omega
    rw [this] at hget
    rw [hget]
    rfl

/-- C1 counterexample for the claim as stated: an emitter-shaped file with a
numbered comment slot.  It has 2 real (non-comment, non-header) lines, the
highest pass-1 address is 2, and pass 2 emits 3 words — so the number of real
lines does not equal the highest pass-1 address plus one (nor the emitted
word count): numbered comments occupy address slots. -/
theorem claim_c1_counterexample :
    claimRealCount [⟨none, "j 1".toList⟩, ⟨some 1, "# Label L0:".toList⟩,
        ⟨some 2, "halt".toList⟩] = 2 ∧
    (pass1 [⟨none, "j 1".toList⟩, ⟨some 1, "# Label L0:".toList⟩,
        ⟨some 2, "halt".toList⟩]).1 = 2 ∧
    (pass2Words (pass1 [⟨none, "j 1".toList⟩,
        ⟨some 1, "# Label L0:".toList⟩, ⟨some 2, "halt".toList⟩]).2
        [⟨none, "j 1".toList⟩, ⟨some 1, "# Label L0:".toList⟩,
        ⟨some 2, "halt".toList⟩]).length = 3 ∧
    (2 : Nat) ≠ 2 + 1 ∧
    WFBody 0 [⟨some 1, "# Label L0:".toList⟩, ⟨some 2, "halt".toList⟩] := by
  refine ⟨by decide, by decide, by decide, by decide, ?_⟩
  exact WFBody.commentLine 0 _ _ rfl (by decide)
    (WFBody.last 1 _ rfl (by decide))

/-- Witness for C1: the file `j 1` / `1-addi r30 r30 3` / `2-halt` has three
emitted words, final pass-1 address 2, and the word of line 2 at address 2. -/
theorem claim_c1_witness :
    (pass2Words (pass1 [⟨none, "j 1".toList⟩,
        ⟨some 1, "addi r30 r30 3".toList⟩, ⟨some 2, "halt".toList⟩]).2
        [⟨none, "j 1".toList⟩, ⟨some 1, "addi r30 r30 3".toList⟩,
         ⟨some 2, "halt".toList⟩]).length = 3 ∧
    (pass1 [⟨none, "j 1".toList⟩, ⟨some 1, "addi r30 r30 3".toList⟩,
        ⟨some 2, "halt".toList⟩]).1 = 2 ∧
    (pass2Words (pass1 [⟨none, "j 1".toList⟩,
        ⟨some 1, "addi r30 r30 3".toList⟩, ⟨some 2, "halt".toList⟩]).2
        [⟨none, "j 1".toList⟩, ⟨some 1, "addi r30 r30 3".toList⟩,
         ⟨some 2, "halt".toList⟩])[2]?
      = some ((parseInstructionLine (pass1 [⟨none, "j 1".toList⟩,
          ⟨some 1, "addi r30 r30 3".toList⟩, ⟨some 2, "halt".toList⟩]).2
          "halt".toList).getD 0) := by
  have hwf : WFBody 0 [⟨some 1, "addi r30 r30 3".toList⟩,
      ⟨some 2, "halt".toList⟩] :=
    WFBody.realLine 0 _ _ rfl (by decide) (WFBody.last 1 _ rfl (by decide))
  have h := claim_c1 ⟨none, "j 1".toList⟩
    [⟨some 1, "addi r30 r30 3".toList⟩, ⟨some 2, "halt".toList⟩]
    rfl (by decide) (by decide) hwf
  refine ⟨?_, ?_, ?_⟩
  · rw [h.1]
    decide
  · rw [h.2.1]
    decide
  · exact h.2.2 ⟨some 2, "halt".toList⟩ (by simp) 2 rfl

/-! ### Claim C5: encode/decode round trip -/

set_option maxRecDepth 4000

theorem decodeRender_R (e : PInstr) (hfmt : e.fmt = IFormat.fmtR)
    (hfind : findByOpcode e.opcode = some e) (hop : e.opcode < 64)
    (rs rt rd shamt : Int) :
    decodeRender (generateRType e rs rt rd shamt)
      = some (e.mnemonic,
          [(rs % 64).toNat, (rt % 64).toNat, (rd % 64).toNat]) := by
  obtain ⟨ho, hrs, hrt, hrd, _, _⟩ := generateRType_fields e rs rt rd shamt
  rw [decodeRender, ho, Nat.mod_eq_of_lt hop]
  simp only [hfind, hrs, hrt, hrd, hfmt]

theorem decodeRender_I (e : PInstr) (hfmt : e.fmt = IFormat.fmtI)
    (hfind : findByOpcode e.opcode = some e) (hop : e.opcode < 64)
    (hsw : mnemLeadsB e.mnemonic = false)
    (hnb : branchMnems.contains e.mnemonic = false) (rs rt imm : Int) :
    decodeRender (generateIType e rs rt imm)
      = some (e.mnemonic,
          [(rs % 64).toNat, (rt % 64).toNat, (imm % 16384).toNat]) := by
  obtain ⟨ho, hrs, hrt, him, _⟩ := generateIType_fields e rs rt imm hnb
  rw [decodeRender, ho, Nat.mod_eq_of_lt hop]
  simp only [hfind, hrs, hrt, him, hfmt, hsw, Bool.false_eq_true, if_false]

theorem decodeRender_Ibr (e : PInstr) (hfmt : e.fmt = IFormat.fmtI)
    (hfind : findByOpcode e.opcode = some e) (hop : e.opcode < 64)
    (hsw : mnemLeadsB e.mnemonic = true)
    (hb : branchMnems.contains e.mnemonic = true) (rs rt imm : Int) :
    decodeRender (generateIType e rs rt imm)
      = some (e.mnemonic,
          [(rs % 64).toNat, (rt % 64).toNat, (imm % 64).toNat]) := by
  obtain ⟨ho, hrs, hrt, had, _, _⟩ := generateIType_branch_fields e rs rt imm hb
  rw [decodeRender, ho, Nat.mod_eq_of_lt hop]
  simp only [hfind, hrs, hrt, had, hfmt, hsw, if_true]

theorem decodeRender_J (e : PInstr) (hfmt : e.fmt = IFormat.fmtJ)
    (hfind : findByOpcode e.opcode = some e) (hop : e.opcode < 64)
    (addr : Int) :
    decodeRender (generateJType e addr)
      = some (e.mnemonic, [(addr % 64).toNat]) := by
  obtain ⟨ho, had, _, _⟩ := generateJType_fields e addr
  rw [decodeRender, ho, Nat.mod_eq_of_lt hop]
  simp only [hfind, had, hfmt]

/-- **C5** (corrected): for every instruction of the fixed table other than
`sll`/`srl`, when the token count matches the operand arity of the mnemonic,
decoding the encoded word by opcode and field extraction re-renders the
original mnemonic, and every original operand value that fits its field is
among the rendered operand values.  (For `sll`/`srl` the claim fails: the
shift amount is packed into `SHAMT[7:0]` but `printBinaryWithComments`
renders R-format words as RS/RT/RD only, so the shift amount is lost; see
the counterexample.) -/
theorem claim_c5 (e : PInstr) (he : e ∈ instructions)
    (h1 : e.mnemonic ≠ "sll") (h2 : e.mnemonic ≠ "srl")
    (labels : BLabels) (toks : List (List Char))
    (htc : toks.length = 1 + (origOperandVals labels e toks).length) :
    ∃ ops, decodeRender (encodeOperands labels e toks)
        = some (e.mnemonic, ops) ∧
      ∀ p ∈ origOperandVals labels e toks,
        0 ≤ p.1 → p.1 < (p.2 : Int) → p.1.toNat ∈ ops := by
  fin_cases he
  · have ht : toks.length = 4 := by
      simpa [origOperandVals] using htc
    have henc : encodeOperands labels ⟨"add", 0x00, .fmtR⟩ toks
        = generateRType ⟨"add", 0x00, .fmtR⟩ (parseRegister (toks.getD 2 [])) (parseRegister (toks.getD 3 [])) (parseRegister (toks.getD 1 [])) (0) := by
      rw [encodeOperands]
      simp [mnemLeadsB, ht]
    refine ⟨[(parseRegister (toks.getD 2 []) % 64).toNat, (parseRegister (toks.getD 3 []) % 64).toNat, (parseRegister (toks.getD 1 []) % 64).toNat], ?_, ?_⟩
    · rw [henc]
      exact decodeRender_R ⟨"add", 0x00, .fmtR⟩ rfl rfl (by decide) _ _ _ _
    · intro p hp h0 hb
      have hov : origOperandVals labels ⟨"add", 0x00, .fmtR⟩ toks = [(parseRegister (toks.getD 1 []), 64), (parseRegister (toks.getD 2 []), 64), (parseRegister (toks.getD 3 []), 64)] := by
        rw [origOperandVals]
        simp [branchMnems]
      rw [hov] at hp
      simp only [List.mem_cons, List.not_mem_nil, or_false] at hp
      rcases hp with rfl | rfl | rfl
      · have hv : parseRegister (toks.getD 1 []) % 64 = parseRegister (toks.getD 1 []) :=
          Int.emod_eq_of_lt h0 (by exact_mod_cast hb)
        rw [hv]
        simp [branchMnems]
      · have hv : parseRegister (toks.getD 2 []) % 64 = parseRegister (toks.getD 2 []) :=
          Int.emod_eq_of_lt h0 (by exact_mod_cast hb)
        rw [hv]
        simp [branchMnems]
      · have hv : parseRegister (toks.getD 3 []) % 64 = parseRegister (toks.getD 3 []) :=
          Int.emod_eq_of_lt h0 (by exact_mod_cast hb)
        rw [hv]
        simp [branchMnems]
  · have ht : toks.length = 4 := by
      simpa [origOperandVals] using htc
    have henc : encodeOperands labels ⟨"sub", 0x01, .fmtR⟩ toks
        = generateRType ⟨"sub", 0x01, .fmtR⟩ (parseRegister (toks.getD 2 [])) (parseRegister (toks.getD 3 [])) (parseRegister (toks.getD 1 [])) (0) := by
      rw [encodeOperands]
      simp [mnemLeadsB, ht]
    refine ⟨[(parseRegister (toks.getD 2 []) % 64).toNat, (parseRegister (toks.getD 3 []) % 64).toNat, (parseRegister (toks.getD 1 []) % 64).toNat], ?_, ?_⟩
    · rw [henc]
      exact decodeRender_R ⟨"sub", 0x01, .fmtR⟩ rfl rfl (by decide) _ _ _ _
    · intro p hp h0 hb
      have hov : origOperandVals labels ⟨"sub", 0x01, .fmtR⟩ toks = [(parseRegister (toks.getD 1 []), 64), (parseRegister (toks.getD 2 []), 64), (parseRegister (toks.getD 3 []), 64)] := by
        rw [origOperandVals]
        simp [branchMnems]
      rw [hov] at hp
      simp only [List.mem_cons, List.not_mem_nil, or_false] at hp
      rcases hp with rfl | rfl | rfl
      · have hv : parseRegister (toks.getD 1 []) % 64 = parseRegister (toks.getD 1 []) :=
          Int.emod_eq_of_lt h0 (by exact_mod_cast hb)
        rw [hv]
        simp [branchMnems]
      · have hv : parseRegister (toks.getD 2 []) % 64 = parseRegister (toks.getD 2 []) :=
          Int.emod_eq_of_lt h0 (by exact_mod_cast hb)
        rw [hv]
        simp [branchMnems]
      · have hv : parseRegister (toks.getD 3 []) % 64 = parseRegister (toks.getD 3 []) :=
          Int.emod_eq_of_lt h0 (by exact_mod_cast hb)
        rw [hv]
        simp [branchMnems]
  · have ht : toks.length = 3 := by
      simpa [origOperandVals] using htc
    have henc : encodeOperands labels ⟨"mult", 0x02, .fmtR⟩ toks
        = generateRType ⟨"mult", 0x02, .fmtR⟩ (parseRegister (toks.getD 1 [])) (parseRegister (toks.getD 2 [])) (0) (0) := by
      rw [encodeOperands]
      simp [mnemLeadsB, ht]
    refine ⟨[(parseRegister (toks.getD 1 []) % 64).toNat, (parseRegister (toks.getD 2 []) % 64).toNat, ((0 : Int) % 64).toNat], ?_, ?_⟩
    · rw [henc]
      exact decodeRender_R ⟨"mult", 0x02, .fmtR⟩ rfl rfl (by decide) _ _ _ _
    · intro p hp h0 hb
      have hov : origOperandVals labels ⟨"mult", 0x02, .fmtR⟩ toks = [(parseRegister (toks.getD 1 []), 64), (parseRegister (toks.getD 2 []), 64)] := by
        rw [origOperandVals]
        simp [branchMnems]
      rw [hov] at hp
      simp only [List.mem_cons, List.not_mem_nil, or_false] at hp
      rcases hp with rfl | rfl
      · have hv : parseRegister (toks.getD 1 []) % 64 = parseRegister (toks.getD 1 []) :=
          Int.emod_eq_of_lt h0 (by exact_mod_cast hb)
        rw [hv]
        simp [branchMnems]
      · have hv : parseRegister (toks.getD 2 []) % 64 = parseRegister (toks.getD 2 []) :=
          Int.emod_eq_of_lt h0 (by exact_mod_cast hb)
        rw [hv]
        simp [branchMnems]
  · have ht : toks.length = 3 := by
      simpa [origOperandVals] using htc
    have henc : encodeOperands labels ⟨"div", 0x03, .fmtR⟩ toks
        = generateRType ⟨"div", 0x03, .fmtR⟩ (parseRegister (toks.getD 1 [])) (parseRegister (toks.getD 2 [])) (0) (0) := by
      rw [encodeOperands]
      simp [mnemLeadsB, ht]
    refine ⟨[(parseRegister (toks.getD 1 []) % 64).toNat, (parseRegister (toks.getD 2 []) % 64).toNat, ((0 : Int) % 64).toNat], ?_, ?_⟩
    · rw [henc]
      exact decodeRender_R ⟨"div", 0x03, .fmtR⟩ rfl rfl (by decide) _ _ _ _
    · intro p hp h0 hb
      have hov : origOperandVals labels ⟨"div", 0x03, .fmtR⟩ toks = [(parseRegister (toks.getD 1 []), 64), (parseRegister (toks.getD 2 []), 64)] := by
        rw [origOperandVals]
        simp [branchMnems]
      rw [hov] at hp
      simp only [List.mem_cons, List.not_mem_nil, or_false] at hp
      rcases hp with rfl | rfl
      · have hv : parseRegister (toks.getD 1 []) % 64 = parseRegister (toks.getD 1 []) :=
          Int.emod_eq_of_lt h0 (by exact_mod_cast hb)
        rw [hv]
        simp [branchMnems]
      · have hv : parseRegister (toks.getD 2 []) % 64 = parseRegister (toks.getD 2 []) :=
          Int.emod_eq_of_lt h0 (by exact_mod_cast hb)
        rw [hv]
        simp [branchMnems]
  · have ht : toks.length = 4 := by
      simpa [origOperandVals] using htc
    have henc : encodeOperands labels ⟨"and", 0x04, .fmtR⟩ toks
        = generateRType ⟨"and", 0x04, .fmtR⟩ (parseRegister (toks.getD 2 [])) (parseRegister (toks.getD 3 [])) (parseRegister (toks.getD 1 [])) (0) := by
      rw [encodeOperands]
      simp [mnemLeadsB, ht]
    refine ⟨[(parseRegister (toks.getD 2 []) % 64).toNat, (parseRegister (toks.getD 3 []) % 64).toNat, (parseRegister (toks.getD 1 []) % 64).toNat], ?_, ?_⟩
    · rw [henc]
      exact decodeRender_R ⟨"and", 0x04, .fmtR⟩ rfl rfl (by decide) _ _ _ _
    · intro p hp h0 hb
      have hov : origOperandVals labels ⟨"and", 0x04, .fmtR⟩ toks = [(parseRegister (toks.getD 1 []), 64), (parseRegister (toks.getD 2 []), 64), (parseRegister (toks.getD 3 []), 64)] := by
        rw [origOperandVals]
        simp [branchMnems]
      rw [hov] at hp
      simp only [List.mem_cons, List.not_mem_nil, or_false] at hp
      rcases hp with rfl | rfl | rfl
      · have hv : parseRegister (toks.getD 1 []) % 64 = parseRegister (toks.getD 1 []) :=
          Int.emod_eq_of_lt h0 (by exact_mod_cast hb)
        rw [hv]
        simp [branchMnems]
      · have hv : parseRegister (toks.getD 2 []) % 64 = parseRegister (toks.getD 2 []) :=
          Int.emod_eq_of_lt h0 (by exact_mod_cast hb)
        rw [hv]
        simp [branchMnems]
      · have hv : parseRegister (toks.getD 3 []) % 64 = parseRegister (toks.getD 3 []) :=
          Int.emod_eq_of_lt h0 (by exact_mod_cast hb)
        rw [hv]
        simp [branchMnems]
  · have ht : toks.length = 4 := by
      simpa [origOperandVals] using htc
    have henc : encodeOperands labels ⟨"or", 0x05, .fmtR⟩ toks
        = generateRType ⟨"or", 0x05, .fmtR⟩ (parseRegister (toks.getD 2 [])) (parseRegister (toks.getD 3 [])) (parseRegister (toks.getD 1 [])) (0) := by
      rw [encodeOperands]
      simp [mnemLeadsB, ht]
    refine ⟨[(parseRegister (toks.getD 2 []) % 64).toNat, (parseRegister (toks.getD 3 []) % 64).toNat, (parseRegister (toks.getD 1 []) % 64).toNat], ?_, ?_⟩
    · rw [henc]
      exact decodeRender_R ⟨"or", 0x05, .fmtR⟩ rfl rfl (by decide) _ _ _ _
    · intro p hp h0 hb
      have hov : origOperandVals labels ⟨"or", 0x05, .fmtR⟩ toks = [(parseRegister (toks.getD 1 []), 64), (parseRegister (toks.getD 2 []), 64), (parseRegister (toks.getD 3 []), 64)] := by
        rw [origOperandVals]
        simp [branchMnems]
      rw [hov] at hp
      simp only [List.mem_cons, List.not_mem_nil, or_false] at hp
      rcases hp with rfl | rfl | rfl
      · have hv : parseRegister (toks.getD 1 []) % 64 = parseRegister (toks.getD 1 []) :=
          Int.emod_eq_of_lt h0 (by exact_mod_cast hb)
        rw [hv]
        simp [branchMnems]
      · have hv : parseRegister (toks.getD 2 []) % 64 = parseRegister (toks.getD 2 []) :=
          Int.emod_eq_of_lt h0 (by exact_mod_cast hb)
        rw [hv]
        simp [branchMnems]
      · have hv : parseRegister (toks.getD 3 []) % 64 = parseRegister (toks.getD 3 []) :=
          Int.emod_eq_of_lt h0 (by exact_mod_cast hb)
        rw [hv]
        simp [branchMnems]
  · exact absurd rfl h1
  · exact absurd rfl h2
  · have ht : toks.length = 4 := by
      simpa [origOperandVals] using htc
    have henc : encodeOperands labels ⟨"slt", 0x08, .fmtR⟩ toks
        = generateRType ⟨"slt", 0x08, .fmtR⟩ (parseRegister (toks.getD 2 [])) (parseRegister (toks.getD 3 [])) (parseRegister (toks.getD 1 [])) (0) := by
      rw [encodeOperands]
      simp [mnemLeadsB, ht]
    refine ⟨[(parseRegister (toks.getD 2 []) % 64).toNat, (parseRegister (toks.getD 3 []) % 64).toNat, (parseRegister (toks.getD 1 []) % 64).toNat], ?_, ?_⟩
    · rw [henc]
      exact decodeRender_R ⟨"slt", 0x08, .fmtR⟩ rfl rfl (by decide) _ _ _ _
    · intro p hp h0 hb
      have hov : origOperandVals labels ⟨"slt", 0x08, .fmtR⟩ toks = [(parseRegister (toks.getD 1 []), 64), (parseRegister (toks.getD 2 []), 64), (parseRegister (toks.getD 3 []), 64)] := by
        rw [origOperandVals]
        simp [branchMnems]
      rw [hov] at hp
      simp only [List.mem_cons, List.not_mem_nil, or_false] at hp
      rcases hp with rfl | rfl | rfl
      · have hv : parseRegister (toks.getD 1 []) % 64 = parseRegister (toks.getD 1 []) :=
          Int.emod_eq_of_lt h0 (by exact_mod_cast hb)
        rw [hv]
        simp [branchMnems]
      · have hv : parseRegister (toks.getD 2 []) % 64 = parseRegister (toks.getD 2 []) :=
          Int.emod_eq_of_lt h0 (by exact_mod_cast hb)
        rw [hv]
        simp [branchMnems]
      · have hv : parseRegister (toks.getD 3 []) % 64 = parseRegister (toks.getD 3 []) :=
          Int.emod_eq_of_lt h0 (by exact_mod_cast hb)
        rw [hv]
        simp [branchMnems]
  · have ht : toks.length = 2 := by
      simpa [origOperandVals] using htc
    have henc : encodeOperands labels ⟨"mfhi", 0x09, .fmtR⟩ toks
        = generateRType ⟨"mfhi", 0x09, .fmtR⟩ (0) (0) (parseRegister (toks.getD 1 [])) (0) := by
      rw [encodeOperands]
      simp [mnemLeadsB, ht]
    refine ⟨[((0 : Int) % 64).toNat, ((0 : Int) % 64).toNat, (parseRegister (toks.getD 1 []) % 64).toNat], ?_, ?_⟩
    · rw [henc]
      exact decodeRender_R ⟨"mfhi", 0x09, .fmtR⟩ rfl rfl (by decide) _ _ _ _
    · intro p hp h0 hb
      have hov : origOperandVals labels ⟨"mfhi", 0x09, .fmtR⟩ toks = [(parseRegister (toks.getD 1 []), 64)] := by
        rw [origOperandVals]
        simp [branchMnems]
      rw [hov] at hp
      simp only [List.mem_cons, List.not_mem_nil, or_false] at hp
      rcases hp with rfl
      · have hv : parseRegister (toks.getD 1 []) % 64 = parseRegister (toks.getD 1 []) :=
          Int.emod_eq_of_lt h0 (by exact_mod_cast hb)
        rw [hv]
        simp [branchMnems]
  · have ht : toks.length = 2 := by
      simpa [origOperandVals] using htc
    have henc : encodeOperands labels ⟨"mflo", 0x0A, .fmtR⟩ toks
        = generateRType ⟨"mflo", 0x0A, .fmtR⟩ (0) (0) (parseRegister (toks.getD 1 [])) (0) := by
      rw [encodeOperands]
      simp [mnemLeadsB, ht]
    refine ⟨[((0 : Int) % 64).toNat, ((0 : Int) % 64).toNat, (parseRegister (toks.getD 1 []) % 64).toNat], ?_, ?_⟩
    · rw [henc]
      exact decodeRender_R ⟨"mflo", 0x0A, .fmtR⟩ rfl rfl (by decide) _ _ _ _
    · intro p hp h0 hb
      have hov : origOperandVals labels ⟨"mflo", 0x0A, .fmtR⟩ toks = [(parseRegister (toks.getD 1 []), 64)] := by
        rw [origOperandVals]
        simp [branchMnems]
      rw [hov] at hp
      simp only [List.mem_cons, List.not_mem_nil, or_false] at hp
      rcases hp with rfl
      · have hv : parseRegister (toks.getD 1 []) % 64 = parseRegister (toks.getD 1 []) :=
          Int.emod_eq_of_lt h0 (by exact_mod_cast hb)
        rw [hv]
        simp [branchMnems]
  · have ht : toks.length = 3 := by
      simpa [origOperandVals] using htc
    have henc : encodeOperands labels ⟨"move", 0x0B, .fmtR⟩ toks
        = generateRType ⟨"move", 0x0B, .fmtR⟩ (parseRegister (toks.getD 2 [])) (0) (parseRegister (toks.getD 1 [])) (0) := by
      rw [encodeOperands]
      simp [mnemLeadsB, ht]
    refine ⟨[(parseRegister (toks.getD 2 []) % 64).toNat, ((0 : Int) % 64).toNat, (parseRegister (toks.getD 1 []) % 64).toNat], ?_, ?_⟩
    · rw [henc]
      exact decodeRender_R ⟨"move", 0x0B, .fmtR⟩ rfl rfl (by decide) _ _ _ _
    · intro p hp h0 hb
      have hov : origOperandVals labels ⟨"move", 0x0B, .fmtR⟩ toks = [(parseRegister (toks.getD 1 []), 64), (parseRegister (toks.getD 2 []), 64)] := by
        rw [origOperandVals]
        simp [branchMnems]
      rw [hov] at hp
      simp only [List.mem_cons, List.not_mem_nil, or_false] at hp
      rcases hp with rfl | rfl
      · have hv : parseRegister (toks.getD 1 []) % 64 = parseRegister (toks.getD 1 []) :=
          Int.emod_eq_of_lt h0 (by exact_mod_cast hb)
        rw [hv]
        simp [branchMnems]
      · have hv : parseRegister (toks.getD 2 []) % 64 = parseRegister (toks.getD 2 []) :=
          Int.emod_eq_of_lt h0 (by exact_mod_cast hb)
        rw [hv]
        simp [branchMnems]
  · have ht : toks.length = 2 := by
      simpa [origOperandVals] using htc
    have henc : encodeOperands labels ⟨"jr", 0x0C, .fmtR⟩ toks
        = generateRType ⟨"jr", 0x0C, .fmtR⟩ (parseRegister (toks.getD 1 [])) (0) (0) (0) := by
      rw [encodeOperands]
      simp [mnemLeadsB, ht]
    refine ⟨[(parseRegister (toks.getD 1 []) % 64).toNat, ((0 : Int) % 64).toNat, ((0 : Int) % 64).toNat], ?_, ?_⟩
    · rw [henc]
      exact decodeRender_R ⟨"jr", 0x0C, .fmtR⟩ rfl rfl (by decide) _ _ _ _
    · intro p hp h0 hb
      have hov : origOperandVals labels ⟨"jr", 0x0C, .fmtR⟩ toks = [(parseRegister (toks.getD 1 []), 64)] := by
        rw [origOperandVals]
        simp [branchMnems]
      rw [hov] at hp
      simp only [List.mem_cons, List.not_mem_nil, or_false] at hp
      rcases hp with rfl
      · have hv : parseRegister (toks.getD 1 []) % 64 = parseRegister (toks.getD 1 []) :=
          Int.emod_eq_of_lt h0 (by exact_mod_cast hb)
        rw [hv]
        simp [branchMnems]
  · have ht : toks.length = 2 := by
      simpa [origOperandVals] using htc
    have henc : encodeOperands labels ⟨"jalr", 0x0D, .fmtR⟩ toks
        = generateRType ⟨"jalr", 0x0D, .fmtR⟩ (parseRegister (toks.getD 1 [])) (0) (0) (0) := by
      rw [encodeOperands]
      simp [mnemLeadsB, ht]
    refine ⟨[(parseRegister (toks.getD 1 []) % 64).toNat, ((0 : Int) % 64).toNat, ((0 : Int) % 64).toNat], ?_, ?_⟩
    · rw [henc]
      exact decodeRender_R ⟨"jalr", 0x0D, .fmtR⟩ rfl rfl (by decide) _ _ _ _
    · intro p hp h0 hb
      have hov : origOperandVals labels ⟨"jalr", 0x0D, .fmtR⟩ toks = [(parseRegister (toks.getD 1 []), 64)] := by
        rw [origOperandVals]
        simp [branchMnems]
      rw [hov] at hp
      simp only [List.mem_cons, List.not_mem_nil, or_false] at hp
      rcases hp with rfl
      · have hv : parseRegister (toks.getD 1 []) % 64 = parseRegister (toks.getD 1 []) :=
          Int.emod_eq_of_lt h0 (by exact_mod_cast hb)
        rw [hv]
        simp [branchMnems]
  · have ht : toks.length = 3 := by
      simpa [origOperandVals] using htc
    have henc : encodeOperands labels ⟨"la", 0x0E, .fmtI⟩ toks
        = generateIType ⟨"la", 0x0E, .fmtI⟩ (0) (parseRegister (toks.getD 1 [])) (parseImmediate labels (toks.getD 2 [])) := by
      rw [encodeOperands]
      simp [mnemLeadsB, ht]
    refine ⟨[((0 : Int) % 64).toNat, (parseRegister (toks.getD 1 []) % 64).toNat, (parseImmediate labels (toks.getD 2 []) % 16384).toNat], ?_, ?_⟩
    · rw [henc]
      exact decodeRender_I ⟨"la", 0x0E, .fmtI⟩ rfl rfl (by decide) (by decide) (by decide) _ _ _
    · intro p hp h0 hb
      have hov : origOperandVals labels ⟨"la", 0x0E, .fmtI⟩ toks = [(parseRegister (toks.getD 1 []), 64), (parseImmediate labels (toks.getD 2 []), 16384)] := by
        rw [origOperandVals]
        simp [branchMnems]
      rw [hov] at hp
      simp only [List.mem_cons, List.not_mem_nil, or_false] at hp
      rcases hp with rfl | rfl
      · have hv : parseRegister (toks.getD 1 []) % 64 = parseRegister (toks.getD 1 []) :=
          Int.emod_eq_of_lt h0 (by exact_mod_cast hb)
        rw [hv]
        simp [branchMnems]
      · have hv : parseImmediate labels (toks.getD 2 []) % 16384 = parseImmediate labels (toks.getD 2 []) :=
          Int.emod_eq_of_lt h0 (by exact_mod_cast hb)
        rw [hv]
        simp [branchMnems]
  · have ht : toks.length = 4 := by
      simpa [origOperandVals] using htc
    have henc : encodeOperands labels ⟨"addi", 0x0F, .fmtI⟩ toks
        = generateIType ⟨"addi", 0x0F, .fmtI⟩ (parseRegister (toks.getD 2 [])) (parseRegister (toks.getD 1 [])) (parseImmediate labels (toks.getD 3 [])) := by
      rw [encodeOperands]
      simp [mnemLeadsB, ht]
    refine ⟨[(parseRegister (toks.getD 2 []) % 64).toNat, (parseRegister (toks.getD 1 []) % 64).toNat, (parseImmediate labels (toks.getD 3 []) % 16384).toNat], ?_, ?_⟩
    · rw [henc]
      exact decodeRender_I ⟨"addi", 0x0F, .fmtI⟩ rfl rfl (by decide) (by decide) (by decide) _ _ _
    · intro p hp h0 hb
      have hov : origOperandVals labels ⟨"addi", 0x0F, .fmtI⟩ toks = [(parseRegister (toks.getD 1 []), 64), (parseRegister (toks.getD 2 []), 64), (parseImmediate labels (toks.getD 3 []), 16384)] := by
        rw [origOperandVals]
        simp [branchMnems]
      rw [hov] at hp
      simp only [List.mem_cons, List.not_mem_nil, or_false] at hp
      rcases hp with rfl | rfl | rfl
      · have hv : parseRegister (toks.getD 1 []) % 64 = parseRegister (toks.getD 1 []) :=
          Int.emod_eq_of_lt h0 (by exact_mod_cast hb)
        rw [hv]
        simp [branchMnems]
      · have hv : parseRegister (toks.getD 2 []) % 64 = parseRegister (toks.getD 2 []) :=
          Int.emod_eq_of_lt h0 (by exact_mod_cast hb)
        rw [hv]
        simp [branchMnems]
      · have hv : parseImmediate labels (toks.getD 3 []) % 16384 = parseImmediate labels (toks.getD 3 []) :=
          Int.emod_eq_of_lt h0 (by exact_mod_cast hb)
        rw [hv]
        simp [branchMnems]
  · have ht : toks.length = 4 := by
      simpa [origOperandVals] using htc
    have henc : encodeOperands labels ⟨"subi", 0x10, .fmtI⟩ toks
        = generateIType ⟨"subi", 0x10, .fmtI⟩ (parseRegister (toks.getD 2 [])) (parseRegister (toks.getD 1 [])) (parseImmediate labels (toks.getD 3 [])) := by
      rw [encodeOperands]
      simp [mnemLeadsB, ht]
    refine ⟨[(parseRegister (toks.getD 2 []) % 64).toNat, (parseRegister (toks.getD 1 []) % 64).toNat, (parseImmediate labels (toks.getD 3 []) % 16384).toNat], ?_, ?_⟩
    · rw [henc]
      exact decodeRender_I ⟨"subi", 0x10, .fmtI⟩ rfl rfl (by decide) (by decide) (by decide) _ _ _
    · intro p hp h0 hb
      have hov : origOperandVals labels ⟨"subi", 0x10, .fmtI⟩ toks = [(parseRegister (toks.getD 1 []), 64), (parseRegister (toks.getD 2 []), 64), (parseImmediate labels (toks.getD 3 []), 16384)] := by
        rw [origOperandVals]
        simp [branchMnems]
      rw [hov] at hp
      simp only [List.mem_cons, List.not_mem_nil, or_false] at hp
      rcases hp with rfl | rfl | rfl
      · have hv : parseRegister (toks.getD 1 []) % 64 = parseRegister (toks.getD 1 []) :=
          Int.emod_eq_of_lt h0 (by exact_mod_cast hb)
        rw [hv]
        simp [branchMnems]
      · have hv : parseRegister (toks.getD 2 []) % 64 = parseRegister (toks.getD 2 []) :=
          Int.emod_eq_of_lt h0 (by exact_mod_cast hb)
        rw [hv]
        simp [branchMnems]
      · have hv : parseImmediate labels (toks.getD 3 []) % 16384 = parseImmediate labels (toks.getD 3 []) :=
          Int.emod_eq_of_lt h0 (by exact_mod_cast hb)
        rw [hv]
        simp [branchMnems]
  · have ht : toks.length = 4 := by
      simpa [origOperandVals] using htc
    have henc : encodeOperands labels ⟨"andi", 0x11, .fmtI⟩ toks
        = generateIType ⟨"andi", 0x11, .fmtI⟩ (parseRegister (toks.getD 2 [])) (parseRegister (toks.getD 1 [])) (parseImmediate labels (toks.getD 3 [])) := by
      rw [encodeOperands]
      simp [mnemLeadsB, ht]
    refine ⟨[(parseRegister (toks.getD 2 []) % 64).toNat, (parseRegister (toks.getD 1 []) % 64).toNat, (parseImmediate labels (toks.getD 3 []) % 16384).toNat], ?_, ?_⟩
    · rw [henc]
      exact decodeRender_I ⟨"andi", 0x11, .fmtI⟩ rfl rfl (by decide) (by decide) (by decide) _ _ _
    · intro p hp h0 hb
      have hov : origOperandVals labels ⟨"andi", 0x11, .fmtI⟩ toks = [(parseRegister (toks.getD 1 []), 64), (parseRegister (toks.getD 2 []), 64), (parseImmediate labels (toks.getD 3 []), 16384)] := by
        rw [origOperandVals]
        simp [branchMnems]
      rw [hov] at hp
      simp only [List.mem_cons, List.not_mem_nil, or_false] at hp
      rcases hp with rfl | rfl | rfl
      · have hv : parseRegister (toks.getD 1 []) % 64 = parseRegister (toks.getD 1 []) :=
          Int.emod_eq_of_lt h0 (by exact_mod_cast hb)
        rw [hv]
        simp [branchMnems]
      · have hv : parseRegister (toks.getD 2 []) % 64 = parseRegister (toks.getD 2 []) :=
          Int.emod_eq_of_lt h0 (by exact_mod_cast hb)
        rw [hv]
        simp [branchMnems]
      · have hv : parseImmediate labels (toks.getD 3 []) % 16384 = parseImmediate labels (toks.getD 3 []) :=
          Int.emod_eq_of_lt h0 (by exact_mod_cast hb)
        rw [hv]
        simp [branchMnems]
  · have ht : toks.length = 4 := by
      simpa [origOperandVals] using htc
    have henc : encodeOperands labels ⟨"ori", 0x12, .fmtI⟩ toks
        = generateIType ⟨"ori", 0x12, .fmtI⟩ (parseRegister (toks.getD 2 [])) (parseRegister (toks.getD 1 [])) (parseImmediate labels (toks.getD 3 [])) := by
      rw [encodeOperands]
      simp [mnemLeadsB, ht]
    refine ⟨[(parseRegister (toks.getD 2 []) % 64).toNat, (parseRegister (toks.getD 1 []) % 64).toNat, (parseImmediate labels (toks.getD 3 []) % 16384).toNat], ?_, ?_⟩
    · rw [henc]
      exact decodeRender_I ⟨"ori", 0x12, .fmtI⟩ rfl rfl (by decide) (by decide) (by decide) _ _ _
    · intro p hp h0 hb
      have hov : origOperandVals labels ⟨"ori", 0x12, .fmtI⟩ toks = [(parseRegister (toks.getD 1 []), 64), (parseRegister (toks.getD 2 []), 64), (parseImmediate labels (toks.getD 3 []), 16384)] := by
        rw [origOperandVals]
        simp [branchMnems]
      rw [hov] at hp
      simp only [List.mem_cons, List.not_mem_nil, or_false] at hp
      rcases hp with rfl | rfl | rfl
      · have hv : parseRegister (toks.getD 1 []) % 64 = parseRegister (toks.getD 1 []) :=
          Int.emod_eq_of_lt h0 (by exact_mod_cast hb)
        rw [hv]
        simp [branchMnems]
      · have hv : parseRegister (toks.getD 2 []) % 64 = parseRegister (toks.getD 2 []) :=
          Int.emod_eq_of_lt h0 (by exact_mod_cast hb)
        rw [hv]
        simp [branchMnems]
      · have hv : parseImmediate labels (toks.getD 3 []) % 16384 = parseImmediate labels (toks.getD 3 []) :=
          Int.emod_eq_of_lt h0 (by exact_mod_cast hb)
        rw [hv]
        simp [branchMnems]
  · have ht : toks.length = 4 := by
      simpa [origOperandVals] using htc
    have henc : encodeOperands labels ⟨"beq", 0x13, .fmtI⟩ toks
        = generateIType ⟨"beq", 0x13, .fmtI⟩ (parseRegister (toks.getD 1 [])) (parseRegister (toks.getD 2 [])) (parseImmediate labels (toks.getD 3 [])) := by
      rw [encodeOperands]
      simp [mnemLeadsB, ht]
    refine ⟨[(parseRegister (toks.getD 1 []) % 64).toNat, (parseRegister (toks.getD 2 []) % 64).toNat, (parseImmediate labels (toks.getD 3 []) % 64).toNat], ?_, ?_⟩
    · rw [henc]
      exact decodeRender_Ibr ⟨"beq", 0x13, .fmtI⟩ rfl rfl (by decide) (by decide) (by decide) _ _ _
    · intro p hp h0 hb
      have hov : origOperandVals labels ⟨"beq", 0x13, .fmtI⟩ toks = [(parseRegister (toks.getD 1 []), 64), (parseRegister (toks.getD 2 []), 64), (parseImmediate labels (toks.getD 3 []), 64)] := by
        rw [origOperandVals]
        simp [branchMnems]
      rw [hov] at hp
      simp only [List.mem_cons, List.not_mem_nil, or_false] at hp
      rcases hp with rfl | rfl | rfl
      · have hv : parseRegister (toks.getD 1 []) % 64 = parseRegister (toks.getD 1 []) :=
          Int.emod_eq_of_lt h0 (by exact_mod_cast hb)
        rw [hv]
        simp [branchMnems]
      · have hv : parseRegister (toks.getD 2 []) % 64 = parseRegister (toks.getD 2 []) :=
          Int.emod_eq_of_lt h0 (by exact_mod_cast hb)
        rw [hv]
        simp [branchMnems]
      · have hv : parseImmediate labels (toks.getD 3 []) % 64 = parseImmediate labels (toks.getD 3 []) :=
          Int.emod_eq_of_lt h0 (by exact_mod_cast hb)
        rw [hv]
        simp [branchMnems]
  · have ht : toks.length = 4 := by
      simpa [origOperandVals] using htc
    have henc : encodeOperands labels ⟨"bne", 0x14, .fmtI⟩ toks
        = generateIType ⟨"bne", 0x14, .fmtI⟩ (parseRegister (toks.getD 1 [])) (parseRegister (toks.getD 2 [])) (parseImmediate labels (toks.getD 3 [])) := by
      rw [encodeOperands]
      simp [mnemLeadsB, ht]
    refine ⟨[(parseRegister (toks.getD 1 []) % 64).toNat, (parseRegister (toks.getD 2 []) % 64).toNat, (parseImmediate labels (toks.getD 3 []) % 64).toNat], ?_, ?_⟩
    · rw [henc]
      exact decodeRender_Ibr ⟨"bne", 0x14, .fmtI⟩ rfl rfl (by decide) (by decide) (by decide) _ _ _
    · intro p hp h0 hb
      have hov : origOperandVals labels ⟨"bne", 0x14, .fmtI⟩ toks = [(parseRegister (toks.getD 1 []), 64), (parseRegister (toks.getD 2 []), 64), (parseImmediate labels (toks.getD 3 []), 64)] := by
        rw [origOperandVals]
        simp [branchMnems]
      rw [hov] at hp
      simp only [List.mem_cons, List.not_mem_nil, or_false] at hp
      rcases hp with rfl | rfl | rfl
      · have hv : parseRegister (toks.getD 1 []) % 64 = parseRegister (toks.getD 1 []) :=
          Int.emod_eq_of_lt h0 (by exact_mod_cast hb)
        rw [hv]
        simp [branchMnems]
      · have hv : parseRegister (toks.getD 2 []) % 64 = parseRegister (toks.getD 2 []) :=
          Int.emod_eq_of_lt h0 (by exact_mod_cast hb)
        rw [hv]
        simp [branchMnems]
      · have hv : parseImmediate labels (toks.getD 3 []) % 64 = parseImmediate labels (toks.getD 3 []) :=
          Int.emod_eq_of_lt h0 (by exact_mod_cast hb)
        rw [hv]
        simp [branchMnems]
  · have ht : toks.length = 4 := by
      simpa [origOperandVals] using htc
    have henc : encodeOperands labels ⟨"bgt", 0x15, .fmtI⟩ toks
        = generateIType ⟨"bgt", 0x15, .fmtI⟩ (parseRegister (toks.getD 1 [])) (parseRegister (toks.getD 2 [])) (parseImmediate labels (toks.getD 3 [])) := by
      rw [encodeOperands]
      simp [mnemLeadsB, ht]
    refine ⟨[(parseRegister (toks.getD 1 []) % 64).toNat, (parseRegister (toks.getD 2 []) % 64).toNat, (parseImmediate labels (toks.getD 3 []) % 64).toNat], ?_, ?_⟩
    · rw [henc]
      exact decodeRender_Ibr ⟨"bgt", 0x15, .fmtI⟩ rfl rfl (by decide) (by decide) (by decide) _ _ _
    · intro p hp h0 hb
      have hov : origOperandVals labels ⟨"bgt", 0x15, .fmtI⟩ toks = [(parseRegister (toks.getD 1 []), 64), (parseRegister (toks.getD 2 []), 64), (parseImmediate labels (toks.getD 3 []), 64)] := by
        rw [origOperandVals]
        simp [branchMnems]
      rw [hov] at hp
      simp only [List.mem_cons, List.not_mem_nil, or_false] at hp
      rcases hp with rfl | rfl | rfl
      · have hv : parseRegister (toks.getD 1 []) % 64 = parseRegister (toks.getD 1 []) :=
          Int.emod_eq_of_lt h0 (by exact_mod_cast hb)
        rw [hv]
        simp [branchMnems]
      · have hv : parseRegister (toks.getD 2 []) % 64 = parseRegister (toks.getD 2 []) :=
          Int.emod_eq_of_lt h0 (by exact_mod_cast hb)
        rw [hv]
        simp [branchMnems]
      · have hv : parseImmediate labels (toks.getD 3 []) % 64 = parseImmediate labels (toks.getD 3 []) :=
          Int.emod_eq_of_lt h0 (by exact_mod_cast hb)
        rw [hv]
        simp [branchMnems]
  · have ht : toks.length = 4 := by
      simpa [origOperandVals] using htc
    have henc : encodeOperands labels ⟨"bgte", 0x16, .fmtI⟩ toks
        = generateIType ⟨"bgte", 0x16, .fmtI⟩ (parseRegister (toks.getD 1 [])) (parseRegister (toks.getD 2 [])) (parseImmediate labels (toks.getD 3 [])) := by
      rw [encodeOperands]
      simp [mnemLeadsB, ht]
    refine ⟨[(parseRegister (toks.getD 1 []) % 64).toNat, (parseRegister (toks.getD 2 []) % 64).toNat, (parseImmediate labels (toks.getD 3 []) % 64).toNat], ?_, ?_⟩
    · rw [henc]
      exact decodeRender_Ibr ⟨"bgte", 0x16, .fmtI⟩ rfl rfl (by decide) (by decide) (by decide) _ _ _
    · intro p hp h0 hb
      have hov : origOperandVals labels ⟨"bgte", 0x16, .fmtI⟩ toks = [(parseRegister (toks.getD 1 []), 64), (parseRegister (toks.getD 2 []), 64), (parseImmediate labels (toks.getD 3 []), 64)] := by
        rw [origOperandVals]
        simp [branchMnems]
      rw [hov] at hp
      simp only [List.mem_cons, List.not_mem_nil, or_false] at hp
      rcases hp with rfl | rfl | rfl
      · have hv : parseRegister (toks.getD 1 []) % 64 = parseRegister (toks.getD 1 []) :=
          Int.emod_eq_of_lt h0 (by exact_mod_cast hb)
        rw [hv]
        simp [branchMnems]
      · have hv : parseRegister (toks.getD 2 []) % 64 = parseRegister (toks.getD 2 []) :=
          Int.emod_eq_of_lt h0 (by exact_mod_cast hb)
        rw [hv]
        simp [branchMnems]
      · have hv : parseImmediate labels (toks.getD 3 []) % 64 = parseImmediate labels (toks.getD 3 []) :=
          Int.emod_eq_of_lt h0 (by exact_mod_cast hb)
        rw [hv]
        simp [branchMnems]
  · have ht : toks.length = 4 := by
      simpa [origOperandVals] using htc
    have henc : encodeOperands labels ⟨"blt", 0x17, .fmtI⟩ toks
        = generateIType ⟨"blt", 0x17, .fmtI⟩ (parseRegister (toks.getD 1 [])) (parseRegister (toks.getD 2 [])) (parseImmediate labels (toks.getD 3 [])) := by
      rw [encodeOperands]
      simp [mnemLeadsB, ht]
    refine ⟨[(parseRegister (toks.getD 1 []) % 64).toNat, (parseRegister (toks.getD 2 []) % 64).toNat, (parseImmediate labels (toks.getD 3 []) % 64).toNat], ?_, ?_⟩
    · rw [henc]
      exact decodeRender_Ibr ⟨"blt", 0x17, .fmtI⟩ rfl rfl (by decide) (by decide) (by decide) _ _ _
    · intro p hp h0 hb
      have hov : origOperandVals labels ⟨"blt", 0x17, .fmtI⟩ toks = [(parseRegister (toks.getD 1 []), 64), (parseRegister (toks.getD 2 []), 64), (parseImmediate labels (toks.getD 3 []), 64)] := by
        rw [origOperandVals]
        simp [branchMnems]
      rw [hov] at hp
      simp only [List.mem_cons, List.not_mem_nil, or_false] at hp
      rcases hp with rfl | rfl | rfl
      · have hv : parseRegister (toks.getD 1 []) % 64 = parseRegister (toks.getD 1 []) :=
          Int.emod_eq_of_lt h0 (by exact_mod_cast hb)
        rw [hv]
        simp [branchMnems]
      · have hv : parseRegister (toks.getD 2 []) % 64 = parseRegister (toks.getD 2 []) :=
          Int.emod_eq_of_lt h0 (by exact_mod_cast hb)
        rw [hv]
        simp [branchMnems]
      · have hv : parseImmediate labels (toks.getD 3 []) % 64 = parseImmediate labels (toks.getD 3 []) :=
          Int.emod_eq_of_lt h0 (by exact_mod_cast hb)
        rw [hv]
        simp [branchMnems]
  · have ht : toks.length = 4 := by
      simpa [origOperandVals] using htc
    have henc : encodeOperands labels ⟨"blte", 0x18, .fmtI⟩ toks
        = generateIType ⟨"blte", 0x18, .fmtI⟩ (parseRegister (toks.getD 1 [])) (parseRegister (toks.getD 2 [])) (parseImmediate labels (toks.getD 3 [])) := by
      rw [encodeOperands]
      simp [mnemLeadsB, ht]
    refine ⟨[(parseRegister (toks.getD 1 []) % 64).toNat, (parseRegister (toks.getD 2 []) % 64).toNat, (parseImmediate labels (toks.getD 3 []) % 64).toNat], ?_, ?_⟩
    · rw [henc]
      exact decodeRender_Ibr ⟨"blte", 0x18, .fmtI⟩ rfl rfl (by decide) (by decide) (by decide) _ _ _
    · intro p hp h0 hb
      have hov : origOperandVals labels ⟨"blte", 0x18, .fmtI⟩ toks = [(parseRegister (toks.getD 1 []), 64), (parseRegister (toks.getD 2 []), 64), (parseImmediate labels (toks.getD 3 []), 64)] := by
        rw [origOperandVals]
        simp [branchMnems]
      rw [hov] at hp
      simp only [List.mem_cons, List.not_mem_nil, or_false] at hp
      rcases hp with rfl | rfl | rfl
      · have hv : parseRegister (toks.getD 1 []) % 64 = parseRegister (toks.getD 1 []) :=
          Int.emod_eq_of_lt h0 (by exact_mod_cast hb)
        rw [hv]
        simp [branchMnems]
      · have hv : parseRegister (toks.getD 2 []) % 64 = parseRegister (toks.getD 2 []) :=
          Int.emod_eq_of_lt h0 (by exact_mod_cast hb)
        rw [hv]
        simp [branchMnems]
      · have hv : parseImmediate labels (toks.getD 3 []) % 64 = parseImmediate labels (toks.getD 3 []) :=
          Int.emod_eq_of_lt h0 (by exact_mod_cast hb)
        rw [hv]
        simp [branchMnems]
  · have ht : toks.length = 4 := by
      simpa [origOperandVals] using htc
    have henc : encodeOperands labels ⟨"lw", 0x19, .fmtI⟩ toks
        = generateIType ⟨"lw", 0x19, .fmtI⟩ (parseRegister (toks.getD 2 [])) (parseRegister (toks.getD 1 [])) (parseImmediate labels (toks.getD 3 [])) := by
      rw [encodeOperands]
      simp [mnemLeadsB, ht]
    refine ⟨[(parseRegister (toks.getD 2 []) % 64).toNat, (parseRegister (toks.getD 1 []) % 64).toNat, (parseImmediate labels (toks.getD 3 []) % 16384).toNat], ?_, ?_⟩
    · rw [henc]
      exact decodeRender_I ⟨"lw", 0x19, .fmtI⟩ rfl rfl (by decide) (by decide) (by decide) _ _ _
    · intro p hp h0 hb
      have hov : origOperandVals labels ⟨"lw", 0x19, .fmtI⟩ toks = [(parseRegister (toks.getD 1 []), 64), (parseRegister (toks.getD 2 []), 64), (parseImmediate labels (toks.getD 3 []), 16384)] := by
        rw [origOperandVals]
        simp [branchMnems]
      rw [hov] at hp
      simp only [List.mem_cons, List.not_mem_nil, or_false] at hp
      rcases hp with rfl | rfl | rfl
      · have hv : parseRegister (toks.getD 1 []) % 64 = parseRegister (toks.getD 1 []) :=
          Int.emod_eq_of_lt h0 (by exact_mod_cast hb)
        rw [hv]
        simp [branchMnems]
      · have hv : parseRegister (toks.getD 2 []) % 64 = parseRegister (toks.getD 2 []) :=
          Int.emod_eq_of_lt h0 (by exact_mod_cast hb)
        rw [hv]
        simp [branchMnems]
      · have hv : parseImmediate labels (toks.getD 3 []) % 16384 = parseImmediate labels (toks.getD 3 []) :=
          Int.emod_eq_of_lt h0 (by exact_mod_cast hb)
        rw [hv]
        simp [branchMnems]
  · have ht : toks.length = 4 := by
      simpa [origOperandVals] using htc
    have henc : encodeOperands labels ⟨"sw", 0x1A, .fmtI⟩ toks
        = generateIType ⟨"sw", 0x1A, .fmtI⟩ (parseRegister (toks.getD 2 [])) (parseRegister (toks.getD 1 [])) (parseImmediate labels (toks.getD 3 [])) := by
      rw [encodeOperands]
      simp [mnemLeadsB, ht]
    refine ⟨[(parseRegister (toks.getD 2 []) % 64).toNat, (parseRegister (toks.getD 1 []) % 64).toNat, (parseImmediate labels (toks.getD 3 []) % 16384).toNat], ?_, ?_⟩
    · rw [henc]
      exact decodeRender_I ⟨"sw", 0x1A, .fmtI⟩ rfl rfl (by decide) (by decide) (by decide) _ _ _
    · intro p hp h0 hb
      have hov : origOperandVals labels ⟨"sw", 0x1A, .fmtI⟩ toks = [(parseRegister (toks.getD 1 []), 64), (parseRegister (toks.getD 2 []), 64), (parseImmediate labels (toks.getD 3 []), 16384)] := by
        rw [origOperandVals]
        simp [branchMnems]
      rw [hov] at hp
      simp only [List.mem_cons, List.not_mem_nil, or_false] at hp
      rcases hp with rfl | rfl | rfl
      · have hv : parseRegister (toks.getD 1 []) % 64 = parseRegister (toks.getD 1 []) :=
          Int.emod_eq_of_lt h0 (by exact_mod_cast hb)
        rw [hv]
        simp [branchMnems]
      · have hv : parseRegister (toks.getD 2 []) % 64 = parseRegister (toks.getD 2 []) :=
          Int.emod_eq_of_lt h0 (by exact_mod_cast hb)
        rw [hv]
        simp [branchMnems]
      · have hv : parseImmediate labels (toks.getD 3 []) % 16384 = parseImmediate labels (toks.getD 3 []) :=
          Int.emod_eq_of_lt h0 (by exact_mod_cast hb)
        rw [hv]
        simp [branchMnems]
  · have ht : toks.length = 3 := by
      simpa [origOperandVals] using htc
    have henc : encodeOperands labels ⟨"li", 0x1B, .fmtI⟩ toks
        = generateIType ⟨"li", 0x1B, .fmtI⟩ (0) (parseRegister (toks.getD 1 [])) (parseImmediate labels (toks.getD 2 [])) := by
      rw [encodeOperands]
      simp [mnemLeadsB, ht]
    refine ⟨[((0 : Int) % 64).toNat, (parseRegister (toks.getD 1 []) % 64).toNat, (parseImmediate labels (toks.getD 2 []) % 16384).toNat], ?_, ?_⟩
    · rw [henc]
      exact decodeRender_I ⟨"li", 0x1B, .fmtI⟩ rfl rfl (by decide) (by decide) (by decide) _ _ _
    · intro p hp h0 hb
      have hov : origOperandVals labels ⟨"li", 0x1B, .fmtI⟩ toks = [(parseRegister (toks.getD 1 []), 64), (parseImmediate labels (toks.getD 2 []), 16384)] := by
        rw [origOperandVals]
        simp [branchMnems]
      rw [hov] at hp
      simp only [List.mem_cons, List.not_mem_nil, or_false] at hp
      rcases hp with rfl | rfl
      · have hv : parseRegister (toks.getD 1 []) % 64 = parseRegister (toks.getD 1 []) :=
          Int.emod_eq_of_lt h0 (by exact_mod_cast hb)
        rw [hv]
        simp [branchMnems]
      · have hv : parseImmediate labels (toks.getD 2 []) % 16384 = parseImmediate labels (toks.getD 2 []) :=
          Int.emod_eq_of_lt h0 (by exact_mod_cast hb)
        rw [hv]
        simp [branchMnems]
  · have ht : toks.length = 2 := by
      simpa [origOperandVals] using htc
    have henc : encodeOperands labels ⟨"j", 0x1C, .fmtJ⟩ toks
        = generateJType ⟨"j", 0x1C, .fmtJ⟩ (parseImmediate labels (toks.getD 1 [])) := by
      rw [encodeOperands]
      simp [mnemLeadsB, ht]
    refine ⟨[(parseImmediate labels (toks.getD 1 []) % 64).toNat], ?_, ?_⟩
    · rw [henc]
      exact decodeRender_J ⟨"j", 0x1C, .fmtJ⟩ rfl rfl (by decide) _
    · intro p hp h0 hb
      have hov : origOperandVals labels ⟨"j", 0x1C, .fmtJ⟩ toks = [(parseImmediate labels (toks.getD 1 []), 64)] := by
        rw [origOperandVals]
        simp [branchMnems]
      rw [hov] at hp
      simp only [List.mem_cons, List.not_mem_nil, or_false] at hp
      rcases hp with rfl
      · have hv : parseImmediate labels (toks.getD 1 []) % 64 = parseImmediate labels (toks.getD 1 []) :=
          Int.emod_eq_of_lt h0 (by exact_mod_cast hb)
        rw [hv]
        simp [branchMnems]
  · have ht : toks.length = 2 := by
      simpa [origOperandVals] using htc
    have henc : encodeOperands labels ⟨"jal", 0x1D, .fmtJ⟩ toks
        = generateJType ⟨"jal", 0x1D, .fmtJ⟩ (parseImmediate labels (toks.getD 1 [])) := by
      rw [encodeOperands]
      simp [mnemLeadsB, ht]
    refine ⟨[(parseImmediate labels (toks.getD 1 []) % 64).toNat], ?_, ?_⟩
    · rw [henc]
      exact decodeRender_J ⟨"jal", 0x1D, .fmtJ⟩ rfl rfl (by decide) _
    · intro p hp h0 hb
      have hov : origOperandVals labels ⟨"jal", 0x1D, .fmtJ⟩ toks = [(parseImmediate labels (toks.getD 1 []), 64)] := by
        rw [origOperandVals]
        simp [branchMnems]
      rw [hov] at hp
      simp only [List.mem_cons, List.not_mem_nil, or_false] at hp
      rcases hp with rfl
      · have hv : parseImmediate labels (toks.getD 1 []) % 64 = parseImmediate labels (toks.getD 1 []) :=
          Int.emod_eq_of_lt h0 (by exact_mod_cast hb)
        rw [hv]
        simp [branchMnems]
  · have ht : toks.length = 1 := by
      simpa [origOperandVals] using htc
    have henc : encodeOperands labels ⟨"halt", 0x1E, .fmtR⟩ toks
        = generateRType ⟨"halt", 0x1E, .fmtR⟩ (0) (0) (0) (0) := by
      rw [encodeOperands]
      simp [mnemLeadsB, ht]
    refine ⟨[((0 : Int) % 64).toNat, ((0 : Int) % 64).toNat, ((0 : Int) % 64).toNat], ?_, ?_⟩
    · rw [henc]
      exact decodeRender_R ⟨"halt", 0x1E, .fmtR⟩ rfl rfl (by decide) _ _ _ _
    · intro p hp h0 hb
      have hov : origOperandVals labels ⟨"halt", 0x1E, .fmtR⟩ toks = [] := by
        rw [origOperandVals]
        simp [branchMnems]
      rw [hov] at hp
      simp at hp
  · have ht : toks.length = 3 := by
      simpa [origOperandVals] using htc
    have henc : encodeOperands labels ⟨"outputmem", 0x1F, .fmtI⟩ toks
        = generateIType ⟨"outputmem", 0x1F, .fmtI⟩ (parseRegister (toks.getD 1 [])) (0) (parseImmediate labels (toks.getD 2 [])) := by
      rw [encodeOperands]
      simp [mnemLeadsB, ht]
    refine ⟨[(parseRegister (toks.getD 1 []) % 64).toNat, ((0 : Int) % 64).toNat, (parseImmediate labels (toks.getD 2 []) % 16384).toNat], ?_, ?_⟩
    · rw [henc]
      exact decodeRender_I ⟨"outputmem", 0x1F, .fmtI⟩ rfl rfl (by decide) (by decide) (by decide) _ _ _
    · intro p hp h0 hb
      have hov : origOperandVals labels ⟨"outputmem", 0x1F, .fmtI⟩ toks = [(parseRegister (toks.getD 1 []), 64), (parseImmediate labels (toks.getD 2 []), 16384)] := by
        rw [origOperandVals]
        simp [branchMnems]
      rw [hov] at hp
      simp only [List.mem_cons, List.not_mem_nil, or_false] at hp
      rcases hp with rfl | rfl
      · have hv : parseRegister (toks.getD 1 []) % 64 = parseRegister (toks.getD 1 []) :=
          Int.emod_eq_of_lt h0 (by exact_mod_cast hb)
        rw [hv]
        simp [branchMnems]
      · have hv : parseImmediate labels (toks.getD 2 []) % 16384 = parseImmediate labels (toks.getD 2 []) :=
          Int.emod_eq_of_lt h0 (by exact_mod_cast hb)
        rw [hv]
        simp [branchMnems]
  · have ht : toks.length = 2 := by
      simpa [origOperandVals] using htc
    have henc : encodeOperands labels ⟨"outputreg", 0x20, .fmtR⟩ toks
        = generateRType ⟨"outputreg", 0x20, .fmtR⟩ (parseRegister (toks.getD 1 [])) (0) (0) (0) := by
      rw [encodeOperands]
      simp [mnemLeadsB, ht]
    refine ⟨[(parseRegister (toks.getD 1 []) % 64).toNat, ((0 : Int) % 64).toNat, ((0 : Int) % 64).toNat], ?_, ?_⟩
    · rw [henc]
      exact decodeRender_R ⟨"outputreg", 0x20, .fmtR⟩ rfl rfl (by decide) _ _ _ _
    · intro p hp h0 hb
      have hov : origOperandVals labels ⟨"outputreg", 0x20, .fmtR⟩ toks = [(parseRegister (toks.getD 1 []), 64)] := by
        rw [origOperandVals]
        simp [branchMnems]
      rw [hov] at hp
      simp only [List.mem_cons, List.not_mem_nil, or_false] at hp
      rcases hp with rfl
      · have hv : parseRegister (toks.getD 1 []) % 64 = parseRegister (toks.getD 1 []) :=
          Int.emod_eq_of_lt h0 (by exact_mod_cast hb)
        rw [hv]
        simp [branchMnems]
  · have ht : toks.length = 1 := by
      simpa [origOperandVals] using htc
    have henc : encodeOperands labels ⟨"outputreset", 0x21, .fmtR⟩ toks
        = generateRType ⟨"outputreset", 0x21, .fmtR⟩ (0) (0) (0) (0) := by
      rw [encodeOperands]
      simp [mnemLeadsB, ht]
    refine ⟨[((0 : Int) % 64).toNat, ((0 : Int) % 64).toNat, ((0 : Int) % 64).toNat], ?_, ?_⟩
    · rw [henc]
      exact decodeRender_R ⟨"outputreset", 0x21, .fmtR⟩ rfl rfl (by decide) _ _ _ _
    · intro p hp h0 hb
      have hov : origOperandVals labels ⟨"outputreset", 0x21, .fmtR⟩ toks = [] := by
        rw [origOperandVals]
        simp [branchMnems]
      rw [hov] at hp
      simp at hp
  · have ht : toks.length = 2 := by
      simpa [origOperandVals] using htc
    have henc : encodeOperands labels ⟨"input", 0x22, .fmtR⟩ toks
        = generateRType ⟨"input", 0x22, .fmtR⟩ (0) (0) (parseRegister (toks.getD 1 [])) (0) := by
      rw [encodeOperands]
      simp [mnemLeadsB, ht]
    refine ⟨[((0 : Int) % 64).toNat, ((0 : Int) % 64).toNat, (parseRegister (toks.getD 1 []) % 64).toNat], ?_, ?_⟩
    · rw [henc]
      exact decodeRender_R ⟨"input", 0x22, .fmtR⟩ rfl rfl (by decide) _ _ _ _
    · intro p hp h0 hb
      have hov : origOperandVals labels ⟨"input", 0x22, .fmtR⟩ toks = [(parseRegister (toks.getD 1 []), 64)] := by
        rw [origOperandVals]
        simp [branchMnems]
      rw [hov] at hp
      simp only [List.mem_cons, List.not_mem_nil, or_false] at hp
      rcases hp with rfl
      · have hv : parseRegister (toks.getD 1 []) % 64 = parseRegister (toks.getD 1 []) :=
          Int.emod_eq_of_lt h0 (by exact_mod_cast hb)
        rw [hv]
        simp [branchMnems]

/-- **C5 counterexample**: for `sll` the round trip fails.  `sll r1 r2 3`
packs the shift amount 3 into `SHAMT[7:0]`, but `printBinaryWithComments`
renders every R-format word as RS/RT/RD only, so the rendering is
`("sll", [2, 0, 1])` and the original shift amount 3 is not among the
rendered operand values. -/
theorem claim_c5_counterexample :
    encodeOperands [] ⟨"sll", 0x06, .fmtR⟩ (tokenize "sll r1 r2 3".toList)
      = generateRType ⟨"sll", 0x06, .fmtR⟩ 2 0 1 3 ∧
    decodeRender (encodeOperands [] ⟨"sll", 0x06, .fmtR⟩
        (tokenize "sll r1 r2 3".toList)) = some ("sll", [2, 0, 1]) ∧
    ¬ ((3 : Nat) ∈ ([2, 0, 1] : List Nat)) := by
  decide

/-- **C5 witness**: the round-trip theorem applied to `addi r1 r2 5`. -/
theorem claim_c5_witness :
    ∃ ops, decodeRender (encodeOperands [] ⟨"addi", 0x0F, .fmtI⟩
        (tokenize "addi r1 r2 5".toList)) = some ("addi", ops) ∧
      ∀ p ∈ origOperandVals [] ⟨"addi", 0x0F, .fmtI⟩
          (tokenize "addi r1 r2 5".toList),
        0 ≤ p.1 → p.1 < (p.2 : Int) → p.1.toNat ∈ ops :=
  claim_c5 ⟨"addi", 0x0F, .fmtI⟩ (by decide) (by decide) (by decide) []
    (tokenize "addi r1 r2 5".toList) (by decide)
